import Mathlib

/-!
Shallow embedding of the Unicode transcoding engine and the generic lexer of
`c89str.h` (single-header C library), together with theorems settling the
frozen claims about its specification.

Modelling conventions, used throughout:

* A C byte/code-unit buffer is a `List Nat` holding the unit values, and a
  pointer into a buffer is an index.  Reads are through `memGet`, which
  yields 0 beyond the end of the list: this models a zero unit sitting right
  after the content, which is the case for every null-terminated buffer (the
  situation in which the original code performs such reads on purpose).
* `size_t` is `Nat`; the sentinel `(size_t)-1` is `c89str_npos = 2^64 - 1`.
  Subtractions that can underflow in C are written with `s64sub`, which is
  exact 64-bit wrap-around subtraction; all other arithmetic stays within
  `Nat` on the paths exercised here.
* `errno_t` results are the inductive `Errno`; the C codes `C89STR_SUCCESS`,
  `EINVAL`, `ENOMEM`, `ENOENT`, `C89STR_EBOM`, `C89STR_ECODEPOINT` map to its
  constructors (all distinct values in C as well).
* Null-pointer arguments are not modelled: every embedded entry point is the
  non-null branch of the original (the null branches return `EINVAL` or
  delegate to the measure variant before any work happens).
* Output parameters become components of the returned tuple.
* Host endianness, a runtime test in C, is an explicit `hostLE : Bool`
  parameter of the functions that depend on it.
-/

/-- Read of a buffer at an index; 0 beyond the end (the null terminator that
sits after the content of a null-terminated buffer). -/
def memGet (m : List Nat) (i : Nat) : Nat := m.getD i 0

/-- Exact 64-bit `size_t` subtraction (wraps around like the C code would). -/
def s64sub (a b : Nat) : Nat := (a + (2 ^ 64 - b % 2 ^ 64)) % 2 ^ 64

/-- The `(size_t)-1` sentinel `c89str_npos`, meaning "null terminated, compute
the length by scanning". -/
def c89str_npos : Nat := 2 ^ 64 - 1

/-- Result codes of the library (`C89STR_SUCCESS`, `EINVAL`, `ENOMEM`,
`ENOENT`, `C89STR_EBOM`, `C89STR_ECODEPOINT`).  They are pairwise distinct
integers in the C code as well. -/
inductive Errno where
  | success
  | einval
  | enomem
  | enoent
  | ebom
  | ecodepoint
  deriving DecidableEq, Repr

def C89STR_UNICODE_MAX_CODE_POINT : Nat := 0x10FFFF
def C89STR_UNICODE_REPLACEMENT_CODE_POINT : Nat := 0xFFFD
def C89STR_UNICODE_REPLACEMENT_CODE_POINT_LENGTH_UTF16 : Nat := 1
def C89STR_FORBID_BOM : Nat := 2
def C89STR_ERROR_ON_INVALID_CODE_POINT : Nat := 4

/-- `c89str_is_invalid_utf8_octet`: RFC 3629 section 1, the octet values
`C0`, `C1`, `F5`..`FF` never appear in UTF-8. -/
def c89str_is_invalid_utf8_octet (b : Nat) : Bool :=
  b == 0xC0 || b == 0xC1 || decide (0xF5 ≤ b)

/-- `c89str_is_cp_in_surrogate_pair_range`. -/
def c89str_is_cp_in_surrogate_pair_range (u : Nat) : Bool :=
  decide (0xD800 ≤ u ∧ u ≤ 0xDFFF)

/-- `c89str_is_valid_code_point`. -/
def c89str_is_valid_code_point (u : Nat) : Bool :=
  decide (u ≤ C89STR_UNICODE_MAX_CODE_POINT) && !c89str_is_cp_in_surrogate_pair_range u

/-- `c89str_utf32_cp_to_utf16_pair`: RFC 2781 section 2.1.  The two stores
into `pUTF16[0]`, `pUTF16[1]` become the two components; the cast to
`c89str_utf16` is the `% 2^16` truncation. -/
def c89str_utf32_cp_to_utf16_pair (cp : Nat) : Nat × Nat :=
  let u := cp - 0x10000
  ((0xD800 ||| ((u &&& 0xFFC00) >>> 10)) % 2 ^ 16,
   (0xDC00 ||| ((u &&& 0x003FF) >>> 0)) % 2 ^ 16)

/-- `c89str_utf16_pair_to_utf32_cp`: RFC 2781 section 2.1 (the exact source
expression, including the vacuous `<< 0`). -/
def c89str_utf16_pair_to_utf32_cp (p : Nat × Nat) : Nat :=
  (((p.1 &&& 0x003FF) <<< 10) ||| ((p.2 &&& 0x003FF) <<< 0)) + 0x10000

/-- `c89str_utf8_has_bom`. -/
def c89str_utf8_has_bom (bytes : List Nat) (len : Nat) : Bool :=
  if len < 3 then false
  else memGet bytes 0 == 0xEF && memGet bytes 1 == 0xBB && memGet bytes 2 == 0xBF

/-- `c89str_utf16_is_bom_le` on the two bytes of the leading unit. -/
def c89str_utf16_is_bom_le (b0 b1 : Nat) : Bool := b0 == 0xFF && b1 == 0xFE

/-- `c89str_utf16_is_bom_be` on the two bytes of the leading unit. -/
def c89str_utf16_is_bom_be (b0 b1 : Nat) : Bool := b0 == 0xFE && b1 == 0xFF

/-- Memory byte view of a 16-bit unit, depending on host endianness: the C
code inspects a `c89str_utf16` through an `unsigned char` pointer. -/
def c89str_utf16_unit_bytes (hostLE : Bool) (u : Nat) : Nat × Nat :=
  if hostLE then (u % 256, u / 256 % 256) else (u / 256 % 256, u % 256)

/-- `c89str_utf16_has_bom`. -/
def c89str_utf16_has_bom (hostLE : Bool) (units : List Nat) (len : Nat) : Bool :=
  if len < 2 then false
  else
    let b := c89str_utf16_unit_bytes hostLE (memGet units 0)
    c89str_utf16_is_bom_le b.1 b.2 || c89str_utf16_is_bom_be b.1 b.2

/-- `c89str_swap_endian_uint16` (the portable, non-intrinsic branch; the
intrinsic branches compute the same byte swap). -/
def c89str_swap_endian_uint16 (n : Nat) : Nat :=
  (((n &&& 0xFF00) >>> 8) ||| ((n &&& 0x00FF) <<< 8)) % 2 ^ 16

/-- `c89str_swap_endian_uint32` (the portable, non-intrinsic branch). -/
def c89str_swap_endian_uint32 (n : Nat) : Nat :=
  (((n &&& 0xFF000000) >>> 24) ||| ((n &&& 0x00FF0000) >>> 8) |||
   ((n &&& 0x0000FF00) <<< 8) ||| ((n &&& 0x000000FF) <<< 24)) % 2 ^ 32

/-- `c89str_le2host_16`: identity on a little-endian host, byte swap
otherwise. -/
def c89str_le2host_16 (hostLE : Bool) (n : Nat) : Nat :=
  if !hostLE then c89str_swap_endian_uint16 n else n

/-- `c89str_be2host_16`: identity on a big-endian host, byte swap
otherwise. -/
def c89str_be2host_16 (hostLE : Bool) (n : Nat) : Nat :=
  if hostLE then c89str_swap_endian_uint16 n else n

/-- The `while (pUTF16[0] != 0)` arm of `c89str_utf16_swap_endian`: swaps
units in place up to (not including) the first zero unit.  Recursion past the
end of the list corresponds to the loop running into the zero terminator that
sits right after the content. -/
def c89str_utf16_swap_endian_while : List Nat → List Nat
  | [] => []
  | u :: rest =>
      if u = 0 then u :: rest
      else c89str_swap_endian_uint16 u :: c89str_utf16_swap_endian_while rest

/-- `c89str_utf16_swap_endian`.  Note the inverted selection in the source:
the `for (i = 0; i < count; ++i)` arm runs when `count == (size_t)-1` (so the
loop bound is the sentinel itself and the loop crosses the whole modelled
memory), and the terminator-bounded `while` arm runs for every other
`count`, ignoring `count` entirely. -/
def c89str_utf16_swap_endian (mem : List Nat) (count : Nat) : List Nat :=
  if count = c89str_npos then mem.map c89str_swap_endian_uint16
  else c89str_utf16_swap_endian_while mem

/-- The `while (pUTF32[0] != 0)` arm of `c89str_utf32_swap_endian`. -/
def c89str_utf32_swap_endian_while : List Nat → List Nat
  | [] => []
  | u :: rest =>
      if u = 0 then u :: rest
      else c89str_swap_endian_uint32 u :: c89str_utf32_swap_endian_while rest

/-- `c89str_utf32_swap_endian`, with the same inverted branch selection as
`c89str_utf16_swap_endian`. -/
def c89str_utf32_swap_endian (mem : List Nat) (count : Nat) : List Nat :=
  if count = c89str_npos then mem.map c89str_swap_endian_uint32
  else c89str_utf32_swap_endian_while mem

/-- Null-terminated ("`utf8Len == (size_t)-1`") walk of
`c89str_utf8_to_utf16_len`.  `i` is the running pointer offset from the
(post-BOM) start, `acc` the accumulated UTF-16 length.  Each iteration with a
nonzero byte advances `i` by at least one, so fuel `p.length + 1` always
reaches the terminating zero read; the fuel-exhausted arm is unreachable for
that fuel. -/
def c89str_utf8_to_utf16_len_term_loop (p : List Nat) (flags : Nat) :
    Nat → Nat → Nat → Errno × Nat × Nat
  | 0, i, acc => (.success, acc, i)
  | fuel + 1, i, acc =>
    if memGet p i = 0 then (.success, acc, i)
    else if memGet p i < 128 then
      c89str_utf8_to_utf16_len_term_loop p flags fuel (i + 1) (acc + 1)
    else if c89str_is_invalid_utf8_octet (memGet p i) then
      if flags &&& C89STR_ERROR_ON_INVALID_CODE_POINT ≠ 0 then (.ecodepoint, acc, i)
      else c89str_utf8_to_utf16_len_term_loop p flags fuel (i + 1)
        (acc + C89STR_UNICODE_REPLACEMENT_CODE_POINT_LENGTH_UTF16)
    else if memGet p i &&& 0xE0 = 0xC0 then
      if memGet p (i + 1) = 0 then (.einval, acc, i)
      else c89str_utf8_to_utf16_len_term_loop p flags fuel (i + 2) (acc + 1)
    else if memGet p i &&& 0xF0 = 0xE0 then
      if memGet p (i + 1) = 0 ∨ memGet p (i + 2) = 0 then (.einval, acc, i)
      else c89str_utf8_to_utf16_len_term_loop p flags fuel (i + 3) (acc + 1)
    else if memGet p i &&& 0xF8 = 0xF0 then
      if memGet p (i + 1) = 0 ∨ memGet p (i + 2) = 0 ∨ memGet p (i + 3) = 0 then
        (.einval, acc, i)
      else
        let cp := ((memGet p i &&& 0x07) <<< 18) ||| ((memGet p (i + 1) &&& 0x3F) <<< 12) |||
          ((memGet p (i + 2) &&& 0x3F) <<< 6) ||| (memGet p (i + 3) &&& 0x3F)
        if ¬ c89str_is_valid_code_point cp then
          if flags &&& C89STR_ERROR_ON_INVALID_CODE_POINT ≠ 0 then (.ecodepoint, acc, i)
          else c89str_utf8_to_utf16_len_term_loop p flags fuel (i + 4)
            (acc + C89STR_UNICODE_REPLACEMENT_CODE_POINT_LENGTH_UTF16)
        else c89str_utf8_to_utf16_len_term_loop p flags fuel (i + 4) (acc + 2)
    else
      if flags &&& C89STR_ERROR_ON_INVALID_CODE_POINT ≠ 0 then (.ecodepoint, acc, i)
      else c89str_utf8_to_utf16_len_term_loop p flags fuel (i + 1)
        (acc + C89STR_UNICODE_REPLACEMENT_CODE_POINT_LENGTH_UTF16)

/-- Fixed-length walk of `c89str_utf8_to_utf16_len`.  `none` is the bare
`return EINVAL` the source performs for a truncated 4-byte sequence, which
skips the writes of the two output parameters.  Note two faithful oddities of
the source: the truncation guards compare `iUTF8+1 > utf8Len` (2-byte),
`iUTF8+2 > utf8Len` (3-byte) and `iUTF8+3 > utf8Len` (4-byte) instead of
requiring the whole sequence to fit, and the 4-byte arm decodes the code
point from `pUTF8[0..3]`, not from `pUTF8[iUTF8..iUTF8+3]`. -/
def c89str_utf8_to_utf16_len_fixed_loop (p : List Nat) (utf8Len flags : Nat) :
    Nat → Nat → Nat → Option (Errno × Nat × Nat)
  | 0, i, acc => some (.success, acc, i)
  | fuel + 1, i, acc =>
    if i < utf8Len then
      if memGet p i < 128 then
        c89str_utf8_to_utf16_len_fixed_loop p utf8Len flags fuel (i + 1) (acc + 1)
      else if c89str_is_invalid_utf8_octet (memGet p i) then
        if flags &&& C89STR_ERROR_ON_INVALID_CODE_POINT ≠ 0 then some (.ecodepoint, acc, i)
        else c89str_utf8_to_utf16_len_fixed_loop p utf8Len flags fuel (i + 1)
          (acc + C89STR_UNICODE_REPLACEMENT_CODE_POINT_LENGTH_UTF16)
      else if memGet p i &&& 0xE0 = 0xC0 then
        if i + 1 > utf8Len then some (.einval, acc, i)
        else c89str_utf8_to_utf16_len_fixed_loop p utf8Len flags fuel (i + 2) (acc + 1)
      else if memGet p i &&& 0xF0 = 0xE0 then
        if i + 2 > utf8Len then some (.einval, acc, i)
        else c89str_utf8_to_utf16_len_fixed_loop p utf8Len flags fuel (i + 3) (acc + 1)
      else if memGet p i &&& 0xF8 = 0xF0 then
        if i + 3 > utf8Len then none
        else
          let cp := ((memGet p 0 &&& 0x07) <<< 18) ||| ((memGet p 1 &&& 0x3F) <<< 12) |||
            ((memGet p 2 &&& 0x3F) <<< 6) ||| (memGet p 3 &&& 0x3F)
          if ¬ c89str_is_valid_code_point cp then
            if flags &&& C89STR_ERROR_ON_INVALID_CODE_POINT ≠ 0 then some (.ecodepoint, acc, i)
            else c89str_utf8_to_utf16_len_fixed_loop p utf8Len flags fuel (i + 4)
              (acc + C89STR_UNICODE_REPLACEMENT_CODE_POINT_LENGTH_UTF16)
          else c89str_utf8_to_utf16_len_fixed_loop p utf8Len flags fuel (i + 4) (acc + 2)
      else
        if flags &&& C89STR_ERROR_ON_INVALID_CODE_POINT ≠ 0 then some (.ecodepoint, acc, i)
        else c89str_utf8_to_utf16_len_fixed_loop p utf8Len flags fuel (i + 1)
          (acc + C89STR_UNICODE_REPLACEMENT_CODE_POINT_LENGTH_UTF16)
    else some (.success, acc, i)

/-- `c89str_utf8_to_utf16_len` (the "measure" call of the UTF-8 to UTF-16
direction).  Returns `(result, *pUTF16Len, *pUTF8LenProcessed)`.  Fuel for
each loop exceeds the number of its iterations (each iteration advances the
index by at least one). -/
def c89str_utf8_to_utf16_len (pUTF8 : List Nat) (utf8Len flags : Nat) :
    Errno × Nat × Nat :=
  if utf8Len = 0 ∨ memGet pUTF8 0 = 0 then (.success, 0, 0)
  else
    let hasBom := c89str_utf8_has_bom pUTF8 utf8Len
    if hasBom ∧ flags &&& C89STR_FORBID_BOM ≠ 0 then (.ebom, 0, 0)
    else
      let p := if hasBom then pUTF8.drop 3 else pUTF8
      let len := if hasBom ∧ utf8Len ≠ c89str_npos then utf8Len - 3 else utf8Len
      if len = c89str_npos then
        c89str_utf8_to_utf16_len_term_loop p flags (p.length + 1) 0 0
      else
        match c89str_utf8_to_utf16_len_fixed_loop p len flags (len + 1) 0 0 with
        | none => (.einval, 0, 0)
        | some r => r

/-- Null-terminated walk of `c89str_utf8_to_utf16ne` (the "convert" call).
State: `i` pointer offset, `cap` remaining destination capacity (`s64sub`
keeps the 64-bit wrap-around of the C `size_t` decrements), `out` the units
written so far. -/
def c89str_utf8_to_utf16ne_term_loop (p : List Nat) (flags : Nat) :
    Nat → Nat → Nat → List Nat → Errno × List Nat × Nat × Nat
  | 0, i, cap, out => (.success, out, cap, i)
  | fuel + 1, i, cap, out =>
    if memGet p i = 0 then (.success, out, cap, i)
    else if cap = 1 then (.enomem, out, cap, i)
    else if memGet p i < 128 then
      c89str_utf8_to_utf16ne_term_loop p flags fuel (i + 1) (s64sub cap 1) (out ++ [memGet p i])
    else if c89str_is_invalid_utf8_octet (memGet p i) then
      if flags &&& C89STR_ERROR_ON_INVALID_CODE_POINT ≠ 0 then (.ecodepoint, out, cap, i)
      else c89str_utf8_to_utf16ne_term_loop p flags fuel (i + 1)
        (s64sub cap C89STR_UNICODE_REPLACEMENT_CODE_POINT_LENGTH_UTF16)
        (out ++ [C89STR_UNICODE_REPLACEMENT_CODE_POINT])
    else if memGet p i &&& 0xE0 = 0xC0 then
      if memGet p (i + 1) = 0 then (.einval, out, cap, i)
      else c89str_utf8_to_utf16ne_term_loop p flags fuel (i + 2) (s64sub cap 1)
        (out ++ [((memGet p i &&& 0x1F) <<< 6) ||| (memGet p (i + 1) &&& 0x3F)])
    else if memGet p i &&& 0xF0 = 0xE0 then
      if memGet p (i + 1) = 0 ∨ memGet p (i + 2) = 0 then (.einval, out, cap, i)
      else c89str_utf8_to_utf16ne_term_loop p flags fuel (i + 3) (s64sub cap 1)
        (out ++ [((memGet p i &&& 0x0F) <<< 12) ||| ((memGet p (i + 1) &&& 0x3F) <<< 6) |||
          (memGet p (i + 2) &&& 0x3F)])
    else if memGet p i &&& 0xF8 = 0xF0 then
      if cap < 2 then (.success, out, cap, i)
      else if memGet p (i + 1) = 0 ∨ memGet p (i + 2) = 0 ∨ memGet p (i + 3) = 0 then
        (.einval, out, cap, i)
      else
        let cp := ((memGet p i &&& 0x07) <<< 18) ||| ((memGet p (i + 1) &&& 0x3F) <<< 12) |||
          ((memGet p (i + 2) &&& 0x3F) <<< 6) ||| (memGet p (i + 3) &&& 0x3F)
        if ¬ c89str_is_valid_code_point cp then
          if flags &&& C89STR_ERROR_ON_INVALID_CODE_POINT ≠ 0 then (.ecodepoint, out, cap, i)
          else c89str_utf8_to_utf16ne_term_loop p flags fuel (i + 4)
            (s64sub cap C89STR_UNICODE_REPLACEMENT_CODE_POINT_LENGTH_UTF16)
            (out ++ [C89STR_UNICODE_REPLACEMENT_CODE_POINT])
        else c89str_utf8_to_utf16ne_term_loop p flags fuel (i + 4) (s64sub cap 2)
          (out ++ [(c89str_utf32_cp_to_utf16_pair cp).1, (c89str_utf32_cp_to_utf16_pair cp).2])
    else
      if flags &&& C89STR_ERROR_ON_INVALID_CODE_POINT ≠ 0 then (.ecodepoint, out, cap, i)
      else c89str_utf8_to_utf16ne_term_loop p flags fuel (i + 1)
        (s64sub cap C89STR_UNICODE_REPLACEMENT_CODE_POINT_LENGTH_UTF16)
        (out ++ [C89STR_UNICODE_REPLACEMENT_CODE_POINT])

/-- Fixed-length walk of `c89str_utf8_to_utf16ne`.  Unlike the measure
function, this decodes the 4-byte sequence at `iUTF8` (the measure/convert
index discrepancy is in the source). -/
def c89str_utf8_to_utf16ne_fixed_loop (p : List Nat) (utf8Len flags : Nat) :
    Nat → Nat → Nat → List Nat → Errno × List Nat × Nat × Nat
  | 0, i, cap, out => (.success, out, cap, i)
  | fuel + 1, i, cap, out =>
    if i < utf8Len then
      if cap = 1 then (.enomem, out, cap, i)
      else if memGet p i < 128 then
        c89str_utf8_to_utf16ne_fixed_loop p utf8Len flags fuel (i + 1) (s64sub cap 1)
          (out ++ [memGet p i])
      else if c89str_is_invalid_utf8_octet (memGet p i) then
        if flags &&& C89STR_ERROR_ON_INVALID_CODE_POINT ≠ 0 then (.ecodepoint, out, cap, i)
        else c89str_utf8_to_utf16ne_fixed_loop p utf8Len flags fuel (i + 1)
          (s64sub cap C89STR_UNICODE_REPLACEMENT_CODE_POINT_LENGTH_UTF16)
          (out ++ [C89STR_UNICODE_REPLACEMENT_CODE_POINT])
      else if memGet p i &&& 0xE0 = 0xC0 then
        if i + 1 > utf8Len then (.einval, out, cap, i)
        else c89str_utf8_to_utf16ne_fixed_loop p utf8Len flags fuel (i + 2) (s64sub cap 1)
          (out ++ [((memGet p i &&& 0x1F) <<< 6) ||| (memGet p (i + 1) &&& 0x3F)])
      else if memGet p i &&& 0xF0 = 0xE0 then
        if i + 2 > utf8Len then (.einval, out, cap, i)
        else c89str_utf8_to_utf16ne_fixed_loop p utf8Len flags fuel (i + 3) (s64sub cap 1)
          (out ++ [((memGet p i &&& 0x0F) <<< 12) ||| ((memGet p (i + 1) &&& 0x3F) <<< 6) |||
            (memGet p (i + 2) &&& 0x3F)])
      else if memGet p i &&& 0xF8 = 0xF0 then
        if cap < 2 then (.success, out, cap, i)
        else if i + 3 > utf8Len then (.einval, out, cap, i)
        else
          let cp := ((memGet p i &&& 0x07) <<< 18) ||| ((memGet p (i + 1) &&& 0x3F) <<< 12) |||
            ((memGet p (i + 2) &&& 0x3F) <<< 6) ||| (memGet p (i + 3) &&& 0x3F)
          if ¬ c89str_is_valid_code_point cp then
            if flags &&& C89STR_ERROR_ON_INVALID_CODE_POINT ≠ 0 then (.ecodepoint, out, cap, i)
            else c89str_utf8_to_utf16ne_fixed_loop p utf8Len flags fuel (i + 4)
              (s64sub cap C89STR_UNICODE_REPLACEMENT_CODE_POINT_LENGTH_UTF16)
              (out ++ [C89STR_UNICODE_REPLACEMENT_CODE_POINT])
          else c89str_utf8_to_utf16ne_fixed_loop p utf8Len flags fuel (i + 4) (s64sub cap 2)
            (out ++ [(c89str_utf32_cp_to_utf16_pair cp).1, (c89str_utf32_cp_to_utf16_pair cp).2])
      else
        if flags &&& C89STR_ERROR_ON_INVALID_CODE_POINT ≠ 0 then (.ecodepoint, out, cap, i)
        else c89str_utf8_to_utf16ne_fixed_loop p utf8Len flags fuel (i + 1)
          (s64sub cap C89STR_UNICODE_REPLACEMENT_CODE_POINT_LENGTH_UTF16)
          (out ++ [C89STR_UNICODE_REPLACEMENT_CODE_POINT])
    else (.success, out, cap, i)

/-- `c89str_utf8_to_utf16ne` with a non-null destination of capacity
`utf16Cap`.  Returns `(result, written units, *pUTF16Len, *pUTF8LenProcessed)`
where `*pUTF16Len = utf16CapOriginal - utf16Cap` as in the source; the null
terminator is written (when room remains) after the content and is not part
of the returned list nor of `*pUTF16Len`. -/
def c89str_utf8_to_utf16ne (utf16Cap : Nat) (pUTF8 : List Nat) (utf8Len flags : Nat) :
    Errno × List Nat × Nat × Nat :=
  let hasBom := c89str_utf8_has_bom pUTF8 utf8Len
  if hasBom ∧ flags &&& C89STR_FORBID_BOM ≠ 0 then (.ebom, [], 0, 0)
  else
    let p := if hasBom then pUTF8.drop 3 else pUTF8
    let len := if hasBom ∧ utf8Len ≠ c89str_npos then utf8Len - 3 else utf8Len
    let r :=
      if len = c89str_npos then
        c89str_utf8_to_utf16ne_term_loop p flags (p.length + 1) 0 utf16Cap []
      else
        c89str_utf8_to_utf16ne_fixed_loop p len flags (len + 1) 0 utf16Cap []
    match r with
    | (res, out, capLeft, processed) =>
      let res2 := if capLeft = 0 then Errno.enomem else res
      (res2, out, s64sub utf16Cap capLeft, processed)

/-- `c89str_utf8_to_utf16le`: native conversion first, then an in-place byte
swap of the output when the host is not little-endian.  The swap runs over
the written content; its terminator-bounded arm stopping at the written null
terminator corresponds to reaching the end of the content list. -/
def c89str_utf8_to_utf16le (hostLE : Bool) (utf16Cap : Nat) (pUTF8 : List Nat)
    (utf8Len flags : Nat) : Errno × List Nat × Nat × Nat :=
  match c89str_utf8_to_utf16ne utf16Cap pUTF8 utf8Len flags with
  | (res, out, outLen, processed) =>
    if res ≠ Errno.success then (res, out, outLen, processed)
    else if !hostLE then (Errno.success, c89str_utf16_swap_endian out outLen, outLen, processed)
    else (Errno.success, out, outLen, processed)

/-- `c89str_utf32_cp_to_utf8`: encodes one code point, returning the written
bytes and the count, or `([], 0)` when the capacity does not suffice (the
source returns 0 and writes nothing). -/
def c89str_utf32_cp_to_utf8 (utf32 : Nat) (utf8Cap : Nat) : List Nat × Nat :=
  if utf32 ≤ 0x7F ∧ 1 ≤ utf8Cap then ([utf32 &&& 0x7F], 1)
  else if utf32 ≤ 0x7FF ∧ 2 ≤ utf8Cap then
    ([0xC0 ||| ((utf32 &&& 0x07C0) >>> 6), 0x80 ||| (utf32 &&& 0x003F)], 2)
  else if utf32 ≤ 0xFFFF ∧ 3 ≤ utf8Cap then
    ([0xE0 ||| ((utf32 &&& 0xF000) >>> 12), 0x80 ||| ((utf32 &&& 0x0FC0) >>> 6),
      0x80 ||| (utf32 &&& 0x003F)], 3)
  else if utf32 ≤ 0x10FFFF ∧ 4 ≤ utf8Cap then
    ([0xF0 ||| ((utf32 &&& 0x1C0000) >>> 18), 0x80 ||| ((utf32 &&& 0x03F000) >>> 12),
      0x80 ||| ((utf32 &&& 0x000FC0) >>> 6), 0x80 ||| (utf32 &&& 0x00003F)], 4)
  else ([], 0)

/-- One step of the code-point determination shared by both walks of
`c89str_utf16_to_utf8_internal`: given the current index, yields either a
break `(result)` or the decoded `utf32` together with the units consumed. -/
def c89str_utf16_to_utf8_cp_step (isLE hostLE : Bool) (p : List Nat) (flags : Nat)
    (bounded : Bool) (utf16Len i : Nat) : Errno ⊕ (Nat × Nat) :=
  let w1 := if isLE then c89str_le2host_16 hostLE (memGet p i)
            else c89str_be2host_16 hostLE (memGet p i)
  if w1 < 0xD800 ∨ 0xDFFF < w1 then Sum.inr (w1, 1)
  else if 0xD800 ≤ w1 ∧ w1 ≤ 0xDBFF then
    if (if bounded then i + 1 > utf16Len else memGet p (i + 1) = 0) then Sum.inl .einval
    else
      let w2 := if isLE then c89str_le2host_16 hostLE (memGet p (i + 1))
                else c89str_be2host_16 hostLE (memGet p (i + 1))
      if 0xDC00 ≤ w2 ∧ w2 ≤ 0xDFFF then
        Sum.inr (c89str_utf16_pair_to_utf32_cp (memGet p i, memGet p (i + 1)), 2)
      else if flags &&& C89STR_ERROR_ON_INVALID_CODE_POINT ≠ 0 then Sum.inl .ecodepoint
      else Sum.inr (C89STR_UNICODE_REPLACEMENT_CODE_POINT, 2)
  else if flags &&& C89STR_ERROR_ON_INVALID_CODE_POINT ≠ 0 then Sum.inl .ecodepoint
  else Sum.inr (C89STR_UNICODE_REPLACEMENT_CODE_POINT, 1)

/-- Walk of `c89str_utf16_to_utf8_internal`; `bounded = false` is the
null-terminated arm, `bounded = true` the fixed-length arm. -/
def c89str_utf16_to_utf8_loop (isLE hostLE : Bool) (p : List Nat) (flags : Nat)
    (bounded : Bool) (utf16Len : Nat) :
    Nat → Nat → Nat → List Nat → Errno × List Nat × Nat × Nat
  | 0, i, cap, out => (.success, out, cap, i)
  | fuel + 1, i, cap, out =>
    if (if bounded then i < utf16Len else memGet p i ≠ 0) then
      if cap = 0 then (.enomem, out, cap, i)
      else
        match c89str_utf16_to_utf8_cp_step isLE hostLE p flags bounded utf16Len i with
        | Sum.inl e => (e, out, cap, i)
        | Sum.inr (utf32, consumed) =>
          match c89str_utf32_cp_to_utf8 utf32 cap with
          | (_, 0) => (.enomem, out, cap, i + consumed)
          | (bytes, n) =>
            c89str_utf16_to_utf8_loop isLE hostLE p flags bounded utf16Len fuel
              (i + consumed) (s64sub cap n) (out ++ bytes)
    else (.success, out, cap, i)

/-- `c89str_utf16_to_utf8_internal` with a non-null destination.  Returns
`(result, written bytes, *pUTF8Len, *pUTF16LenProcessed)`.  This function
strips a BOM itself (a single unit, correctly) before walking. -/
def c89str_utf16_to_utf8_internal (isLE hostLE : Bool) (utf8Cap : Nat)
    (pUTF16 : List Nat) (utf16Len flags : Nat) : Errno × List Nat × Nat × Nat :=
  let hasBom := c89str_utf16_has_bom hostLE pUTF16 utf16Len
  if hasBom ∧ flags &&& C89STR_FORBID_BOM ≠ 0 then (.ebom, [], 0, 0)
  else
    let p := if hasBom then pUTF16.drop 1 else pUTF16
    let len := if hasBom ∧ utf16Len ≠ c89str_npos then utf16Len - 1 else utf16Len
    let r :=
      if len = c89str_npos then
        c89str_utf16_to_utf8_loop isLE hostLE p flags false len (p.length + 1) 0 utf8Cap []
      else
        c89str_utf16_to_utf8_loop isLE hostLE p flags true len (len + 1) 0 utf8Cap []
    match r with
    | (res, out, capLeft, processed) =>
      let res2 := if capLeft = 0 then Errno.enomem else res
      (res2, out, s64sub utf8Cap capLeft, processed)

/-- `c89str_utf16le_to_utf8`. -/
def c89str_utf16le_to_utf8 (hostLE : Bool) (utf8Cap : Nat) (pUTF16 : List Nat)
    (utf16Len flags : Nat) : Errno × List Nat × Nat × Nat :=
  c89str_utf16_to_utf8_internal true hostLE utf8Cap pUTF16 utf16Len flags

/-- `c89str_utf16be_to_utf8`. -/
def c89str_utf16be_to_utf8 (hostLE : Bool) (utf8Cap : Nat) (pUTF16 : List Nat)
    (utf16Len flags : Nat) : Errno × List Nat × Nat × Nat :=
  c89str_utf16_to_utf8_internal false hostLE utf8Cap pUTF16 utf16Len flags

/-- `c89str_utf16ne_to_utf8`: dispatches on the host endianness. -/
def c89str_utf16ne_to_utf8 (hostLE : Bool) (utf8Cap : Nat) (pUTF16 : List Nat)
    (utf16Len flags : Nat) : Errno × List Nat × Nat × Nat :=
  if hostLE then c89str_utf16le_to_utf8 hostLE utf8Cap pUTF16 utf16Len flags
  else c89str_utf16be_to_utf8 hostLE utf8Cap pUTF16 utf16Len flags

/-- `c89str_utf16_to_utf8` (the auto-endian, BOM-sensing variant) with a
non-null destination.  Faithful to the source: after `pUTF16 += 1` /
`utf16Len -= 1` for the BOM it passes `pUTF16+1, utf16Len-1` to the
endian-specific call, adjusting for the BOM a second time, and then reports
`utf16LenProcessed + 1` as the processed count. -/
def c89str_utf16_to_utf8 (hostLE : Bool) (utf8Cap : Nat) (pUTF16 : List Nat)
    (utf16Len flags : Nat) : Errno × List Nat × Nat × Nat :=
  if c89str_utf16_has_bom hostLE pUTF16 utf16Len then
    if flags &&& C89STR_FORBID_BOM ≠ 0 then (.ebom, [], 0, 0)
    else
      let b := c89str_utf16_unit_bytes hostLE (memGet pUTF16 0)
      let isLE := c89str_utf16_is_bom_le b.1 b.2
      let p := pUTF16.drop 1
      let len := if utf16Len ≠ c89str_npos then utf16Len - 1 else utf16Len
      let r :=
        if isLE then
          c89str_utf16le_to_utf8 hostLE utf8Cap (p.drop 1) (s64sub len 1)
            (flags ||| C89STR_FORBID_BOM)
        else
          c89str_utf16be_to_utf8 hostLE utf8Cap (p.drop 1) (s64sub len 1)
            (flags ||| C89STR_FORBID_BOM)
      match r with
      | (res, out, outLen, processed) => (res, out, outLen, processed + 1)
  else c89str_utf16ne_to_utf8 hostLE utf8Cap pUTF16 utf16Len flags

/-- Null-terminated walk of `c89str_utf8_to_utf32ne`.  In the 4-byte arm the
source advances the input pointer before the validity check, so a strict-mode
invalid code point there reports the four bytes as processed. -/
def c89str_utf8_to_utf32ne_term_loop (p : List Nat) (flags : Nat) :
    Nat → Nat → Nat → List Nat → Errno × List Nat × Nat × Nat
  | 0, i, cap, out => (.success, out, cap, i)
  | fuel + 1, i, cap, out =>
    if memGet p i = 0 then (.success, out, cap, i)
    else if cap = 0 then (.enomem, out, cap, i)
    else if memGet p i < 128 then
      c89str_utf8_to_utf32ne_term_loop p flags fuel (i + 1) (s64sub cap 1) (out ++ [memGet p i])
    else if c89str_is_invalid_utf8_octet (memGet p i) then
      if flags &&& C89STR_ERROR_ON_INVALID_CODE_POINT ≠ 0 then (.ecodepoint, out, cap, i)
      else c89str_utf8_to_utf32ne_term_loop p flags fuel (i + 1) (s64sub cap 1)
        (out ++ [C89STR_UNICODE_REPLACEMENT_CODE_POINT])
    else if memGet p i &&& 0xE0 = 0xC0 then
      if memGet p (i + 1) = 0 then (.einval, out, cap, i)
      else c89str_utf8_to_utf32ne_term_loop p flags fuel (i + 2) (s64sub cap 1)
        (out ++ [((memGet p i &&& 0x1F) <<< 6) ||| (memGet p (i + 1) &&& 0x3F)])
    else if memGet p i &&& 0xF0 = 0xE0 then
      if memGet p (i + 1) = 0 ∨ memGet p (i + 2) = 0 then (.einval, out, cap, i)
      else c89str_utf8_to_utf32ne_term_loop p flags fuel (i + 3) (s64sub cap 1)
        (out ++ [((memGet p i &&& 0x0F) <<< 12) ||| ((memGet p (i + 1) &&& 0x3F) <<< 6) |||
          (memGet p (i + 2) &&& 0x3F)])
    else if memGet p i &&& 0xF8 = 0xF0 then
      if memGet p (i + 1) = 0 ∨ memGet p (i + 2) = 0 ∨ memGet p (i + 3) = 0 then
        (.einval, out, cap, i)
      else
        let cp := ((memGet p i &&& 0x07) <<< 18) ||| ((memGet p (i + 1) &&& 0x3F) <<< 12) |||
          ((memGet p (i + 2) &&& 0x3F) <<< 6) ||| (memGet p (i + 3) &&& 0x3F)
        if ¬ c89str_is_valid_code_point cp then
          if flags &&& C89STR_ERROR_ON_INVALID_CODE_POINT ≠ 0 then (.ecodepoint, out, cap, i + 4)
          else c89str_utf8_to_utf32ne_term_loop p flags fuel (i + 4) (s64sub cap 1)
            (out ++ [C89STR_UNICODE_REPLACEMENT_CODE_POINT])
        else c89str_utf8_to_utf32ne_term_loop p flags fuel (i + 4) (s64sub cap 1) (out ++ [cp])
    else
      if flags &&& C89STR_ERROR_ON_INVALID_CODE_POINT ≠ 0 then (.ecodepoint, out, cap, i)
      else c89str_utf8_to_utf32ne_term_loop p flags fuel (i + 1) (s64sub cap 1)
        (out ++ [C89STR_UNICODE_REPLACEMENT_CODE_POINT])

/-- Fixed-length walk of `c89str_utf8_to_utf32ne` (this function's truncation
guards use `>=` and the indices are correct, unlike `c89str_utf8_to_utf16_len`). -/
def c89str_utf8_to_utf32ne_fixed_loop (p : List Nat) (utf8Len flags : Nat) :
    Nat → Nat → Nat → List Nat → Errno × List Nat × Nat × Nat
  | 0, i, cap, out => (.success, out, cap, i)
  | fuel + 1, i, cap, out =>
    if i < utf8Len then
      if cap = 0 then (.enomem, out, cap, i)
      else if memGet p i < 128 then
        c89str_utf8_to_utf32ne_fixed_loop p utf8Len flags fuel (i + 1) (s64sub cap 1)
          (out ++ [memGet p i])
      else if c89str_is_invalid_utf8_octet (memGet p i) then
        if flags &&& C89STR_ERROR_ON_INVALID_CODE_POINT ≠ 0 then (.ecodepoint, out, cap, i)
        else c89str_utf8_to_utf32ne_fixed_loop p utf8Len flags fuel (i + 1) (s64sub cap 1)
          (out ++ [C89STR_UNICODE_REPLACEMENT_CODE_POINT])
      else if memGet p i &&& 0xE0 = 0xC0 then
        if i + 1 ≥ utf8Len then (.einval, out, cap, i)
        else c89str_utf8_to_utf32ne_fixed_loop p utf8Len flags fuel (i + 2) (s64sub cap 1)
          (out ++ [((memGet p i &&& 0x1F) <<< 6) ||| (memGet p (i + 1) &&& 0x3F)])
      else if memGet p i &&& 0xF0 = 0xE0 then
        if i + 2 ≥ utf8Len then (.einval, out, cap, i)
        else c89str_utf8_to_utf32ne_fixed_loop p utf8Len flags fuel (i + 3) (s64sub cap 1)
          (out ++ [((memGet p i &&& 0x0F) <<< 12) ||| ((memGet p (i + 1) &&& 0x3F) <<< 6) |||
            (memGet p (i + 2) &&& 0x3F)])
      else if memGet p i &&& 0xF8 = 0xF0 then
        if i + 3 ≥ utf8Len then (.einval, out, cap, i)
        else
          let cp := ((memGet p i &&& 0x07) <<< 18) ||| ((memGet p (i + 1) &&& 0x3F) <<< 12) |||
            ((memGet p (i + 2) &&& 0x3F) <<< 6) ||| (memGet p (i + 3) &&& 0x3F)
          if ¬ c89str_is_valid_code_point cp then
            if flags &&& C89STR_ERROR_ON_INVALID_CODE_POINT ≠ 0 then
              (.ecodepoint, out, cap, i + 4)
            else c89str_utf8_to_utf32ne_fixed_loop p utf8Len flags fuel (i + 4) (s64sub cap 1)
              (out ++ [C89STR_UNICODE_REPLACEMENT_CODE_POINT])
          else c89str_utf8_to_utf32ne_fixed_loop p utf8Len flags fuel (i + 4) (s64sub cap 1)
            (out ++ [cp])
      else
        if flags &&& C89STR_ERROR_ON_INVALID_CODE_POINT ≠ 0 then (.ecodepoint, out, cap, i)
        else c89str_utf8_to_utf32ne_fixed_loop p utf8Len flags fuel (i + 1) (s64sub cap 1)
          (out ++ [C89STR_UNICODE_REPLACEMENT_CODE_POINT])
    else (.success, out, cap, i)

/-- `c89str_utf8_to_utf32ne` (equals `c89str_utf8_to_utf32`, the native-endian
single source of truth) with a non-null destination.  Returns
`(result, written code points, *pUTF32Len, *pUTF8LenProcessed)`. -/
def c89str_utf8_to_utf32ne (utf32Cap : Nat) (pUTF8 : List Nat) (utf8Len flags : Nat) :
    Errno × List Nat × Nat × Nat :=
  let hasBom := c89str_utf8_has_bom pUTF8 utf8Len
  if hasBom ∧ flags &&& C89STR_FORBID_BOM ≠ 0 then (.ebom, [], 0, 0)
  else
    let p := if hasBom then pUTF8.drop 3 else pUTF8
    let len := if hasBom ∧ utf8Len ≠ c89str_npos then utf8Len - 3 else utf8Len
    let r :=
      if len = c89str_npos then
        c89str_utf8_to_utf32ne_term_loop p flags (p.length + 1) 0 utf32Cap []
      else
        c89str_utf8_to_utf32ne_fixed_loop p len flags (len + 1) 0 utf32Cap []
    match r with
    | (res, out, capLeft, processed) =>
      let res2 := if capLeft = 0 then Errno.enomem else res
      (res2, out, s64sub utf32Cap capLeft, processed)

/-- `c89str_utf32_is_null_or_whitespace` over a code point buffer; the lexer
only ever applies it to a single decoded code point. -/
def c89str_utf32_is_null_or_whitespace : List Nat → Nat → Bool
  | [], _ => true
  | cp :: rest, len =>
    if cp = 0 ∨ len = 0 then true
    else if (0x09 ≤ cp ∧ cp ≤ 0x0D) ∨ (0x2000 ≤ cp ∧ cp ≤ 0x200A) ∨
        cp = 0x0020 ∨ cp = 0x0085 ∨ cp = 0x00A0 ∨ cp = 0x1680 ∨
        cp = 0x2028 ∨ cp = 0x2029 ∨ cp = 0x202F ∨ cp = 0x205F ∨ cp = 0x3000 then
      c89str_utf32_is_null_or_whitespace rest (len - 1)
    else false

/-- `c89str_utf32_is_newline`. -/
def c89str_utf32_is_newline (cp : Nat) : Bool :=
  decide ((0x0A ≤ cp ∧ cp ≤ 0x0D) ∨ cp = 0x85 ∨ (0x2028 ≤ cp ∧ cp ≤ 0x2029))

/-- Loop of `c89str_utf8_find_next_whitespace`; `off` is both the running
pointer offset and `utf8RunningOffset` (they advance together), `rem` the
remaining length.  Every non-breaking iteration consumes at least one byte,
so fuel `len + 1` suffices. -/
def c89str_utf8_find_next_whitespace_loop (p : List Nat) : Nat → Nat → Nat → Nat
  | 0, _, _ => c89str_npos
  | fuel + 1, off, rem =>
    if memGet p off ≠ 0 ∧ 0 < rem then
      match c89str_utf8_to_utf32ne 1 (p.drop off) rem 0 with
      | (err, out, _, processed) =>
        if err ≠ .success ∧ err ≠ .enomem then c89str_npos
        else if processed = 0 then c89str_npos
        else if c89str_utf32_is_null_or_whitespace [out.headD 0] 1 then off
        else c89str_utf8_find_next_whitespace_loop p fuel (off + processed) (rem - processed)
    else c89str_npos

/-- `c89str_utf8_find_next_whitespace`. -/
def c89str_utf8_find_next_whitespace (p : List Nat) (len : Nat) : Nat :=
  c89str_utf8_find_next_whitespace_loop p (len + 1) 0 len

/-- Loop of `c89str_utf8_ltrim_offset`: every exit returns the running
offset. -/
def c89str_utf8_ltrim_offset_loop (p : List Nat) : Nat → Nat → Nat → Nat
  | 0, off, _ => off
  | fuel + 1, off, rem =>
    if memGet p off ≠ 0 ∧ 0 < rem then
      match c89str_utf8_to_utf32ne 1 (p.drop off) rem 0 with
      | (err, out, _, processed) =>
        if err ≠ .success ∧ err ≠ .enomem then off
        else if processed = 0 then off
        else if c89str_utf32_is_null_or_whitespace [out.headD 0] 1 = false then off
        else c89str_utf8_ltrim_offset_loop p fuel (off + processed) (rem - processed)
    else off

/-- `c89str_utf8_ltrim_offset`. -/
def c89str_utf8_ltrim_offset (p : List Nat) (len : Nat) : Nat :=
  c89str_utf8_ltrim_offset_loop p (len + 1) 0 len

/-- Loop of `c89str_utf8_find_next_line`, returning
`(return value nextBeg, *pThisLineLen)`.  The `\r\n` merge reads the byte
right after the `\r` through `memGet`, exactly as the source reads
`pUTF8[utf8Processed]` (one past the window it was given when the `\r` is its
last byte). -/
def c89str_utf8_find_next_line_loop (p : List Nat) : Nat → Nat → Nat → Nat → Nat → Nat × Nat
  | 0, _, _, thisLen, nextBeg => (nextBeg, thisLen)
  | fuel + 1, off, rem, thisLen, nextBeg =>
    if memGet p off ≠ 0 ∧ 0 < rem then
      match c89str_utf8_to_utf32ne 1 (p.drop off) rem 0 with
      | (err, out, _, processed) =>
        if err ≠ .success ∧ err ≠ .enomem then (nextBeg, thisLen)
        else if processed = 0 then (nextBeg, thisLen)
        else
          let utf32 := out.headD 0
          if c89str_utf32_is_newline utf32 then
            if utf32 = 0x0D ∧ 0 < rem + processed ∧ memGet p (off + processed) = 0x0A then
              (nextBeg + processed + 1, thisLen)
            else (nextBeg + processed, thisLen)
          else c89str_utf8_find_next_line_loop p fuel (off + processed) (rem - processed)
            (thisLen + processed) (nextBeg + processed)
    else (nextBeg, thisLen)

/-- `c89str_utf8_find_next_line`. -/
def c89str_utf8_find_next_line (p : List Nat) (len : Nat) : Nat × Nat :=
  c89str_utf8_find_next_line_loop p (len + 1) 0 len 0 0

/-- `c89str_strlen`: scan for the zero terminator (the terminator of a
modelled buffer sits right after its content). -/
def c89str_strlen (l : List Nat) : Nat := (l.takeWhile (fun b => b != 0)).length

/-- Loop of `c89str_begins_with`; advances through both strings.  It stops
after at most `s2.length + 1` iterations (when `s2` is exhausted its next
read is the implicit terminator), which the wrapper supplies as fuel.  The
pointer-identity shortcut `str1 == str2` of the source is not modelled
(lists have no identity). -/
def c89str_begins_with_loop : Nat → List Nat → Nat → List Nat → Nat → Bool
  | 0, _, _, _, _ => true
  | fuel + 1, s1, len1, s2, len2 =>
    if len1 = 0 ∨ memGet s1 0 = 0 then decide (len2 = 0 ∨ memGet s2 0 = 0)
    else if len2 = 0 ∨ memGet s2 0 = 0 then true
    else if memGet s1 0 ≠ memGet s2 0 then false
    else c89str_begins_with_loop fuel s1.tail (len1 - 1) s2.tail (len2 - 1)

/-- `c89str_begins_with`. -/
def c89str_begins_with (s1 : List Nat) (len1 : Nat) (s2 : List Nat) (len2 : Nat) : Bool :=
  c89str_begins_with_loop (s2.length + 1) s1 len1 s2 len2

/-- Inner comparison loop of `c89str_findn`: compares `str[strOff+i]` with
`other[i]` for `i < otherLen` (`k` counts the comparisons left). -/
def c89str_findn_cmp (str other : List Nat) (strOff : Nat) : Nat → Nat → Bool
  | _, 0 => true
  | i, k + 1 =>
    if memGet str (strOff + i) ≠ memGet other i then false
    else c89str_findn_cmp str other strOff (i + 1) k

/-- Outer loop of `c89str_findn`. -/
def c89str_findn_loop (str : List Nat) (strLen : Nat) (other : List Nat) (otherLen : Nat) :
    Nat → Nat → Errno × Nat
  | 0, _ => (.enoent, c89str_npos)
  | fuel + 1, strOff =>
    if otherLen ≤ strLen - strOff then
      if c89str_findn_cmp str other strOff 0 otherLen then (.success, strOff)
      else c89str_findn_loop str strLen other otherLen fuel (strOff + 1)
    else (.enoent, c89str_npos)

/-- `c89str_findn` (with a non-null result pointer): returns
`(result, *pResult)`; `*pResult` is `c89str_npos` when nothing was found. -/
def c89str_findn (str : List Nat) (strLen : Nat) (other : List Nat) (otherLen : Nat) :
    Errno × Nat :=
  let strLen2 := if strLen = c89str_npos then c89str_strlen str else strLen
  let otherLen2 := if otherLen = c89str_npos then c89str_strlen other else otherLen
  if strLen2 = 0 ∨ otherLen2 = 0 then (.einval, c89str_npos)
  else c89str_findn_loop str strLen2 other otherLen2 (strLen2 + 1) 0

/-! Token type constants (`c89str_token_type`): for single punctuation
characters the token is the character's code point; everything else is one of
these values, allocated from `C89STR_UNICODE_MAX_CODE_POINT + 1` upwards in
declaration order. -/

def c89str_token_type_eof : Nat := C89STR_UNICODE_MAX_CODE_POINT + 1
def c89str_token_type_error : Nat := c89str_token_type_eof + 1
def c89str_token_type_whitespace : Nat := c89str_token_type_eof + 2
def c89str_token_type_newline : Nat := c89str_token_type_eof + 3
def c89str_token_type_comment : Nat := c89str_token_type_eof + 4
def c89str_token_type_identifier : Nat := c89str_token_type_eof + 5
def c89str_token_type_string_double : Nat := c89str_token_type_eof + 6
def c89str_token_type_string_single : Nat := c89str_token_type_eof + 7
def c89str_token_type_integer_literal_dec : Nat := c89str_token_type_eof + 8
def c89str_token_type_integer_literal_hex : Nat := c89str_token_type_eof + 9
def c89str_token_type_integer_literal_oct : Nat := c89str_token_type_eof + 10
def c89str_token_type_integer_literal_bin : Nat := c89str_token_type_eof + 11
def c89str_token_type_float_literal_dec : Nat := c89str_token_type_eof + 12
def c89str_token_type_float_literal_hex : Nat := c89str_token_type_eof + 13
def c89str_token_type_eqeq : Nat := c89str_token_type_eof + 14
def c89str_token_type_noteq : Nat := c89str_token_type_eof + 15
def c89str_token_type_lteq : Nat := c89str_token_type_eof + 16
def c89str_token_type_gteq : Nat := c89str_token_type_eof + 17
def c89str_token_type_andand : Nat := c89str_token_type_eof + 18
def c89str_token_type_oror : Nat := c89str_token_type_eof + 19
def c89str_token_type_plusplus : Nat := c89str_token_type_eof + 20
def c89str_token_type_minusminus : Nat := c89str_token_type_eof + 21
def c89str_token_type_pluseq : Nat := c89str_token_type_eof + 22
def c89str_token_type_minuseq : Nat := c89str_token_type_eof + 23
def c89str_token_type_muleq : Nat := c89str_token_type_eof + 24
def c89str_token_type_diveq : Nat := c89str_token_type_eof + 25
def c89str_token_type_modeq : Nat := c89str_token_type_eof + 26
def c89str_token_type_shleq : Nat := c89str_token_type_eof + 27
def c89str_token_type_shreq : Nat := c89str_token_type_eof + 28
def c89str_token_type_shl : Nat := c89str_token_type_eof + 29
def c89str_token_type_shr : Nat := c89str_token_type_eof + 30
def c89str_token_type_andeq : Nat := c89str_token_type_eof + 31
def c89str_token_type_oreq : Nat := c89str_token_type_eof + 32
def c89str_token_type_xoreq : Nat := c89str_token_type_eof + 33
def c89str_token_type_coloncolon : Nat := c89str_token_type_eof + 34
def c89str_token_type_ellipsis : Nat := c89str_token_type_eof + 35

/-- Lexer options block.  The three comment-delimiter strings are byte lists;
`c89str_lexer_init` installs the defaults `"//"`, `"/*"`, `"*/"`.  The three
skip flags are zero-initialised by `c89str_lexer_init` and stay `false`
throughout this development, so the produce-next loop of `c89str_lexer_next`
runs exactly once per call and the embedding below returns after one token. -/
structure c89str_lexer_options where
  skipWhitespace : Bool
  skipNewlines : Bool
  skipComments : Bool
  allowDashesInIdentifiers : Bool
  pLineCommentOpeningToken : List Nat
  pBlockCommentOpeningToken : List Nat
  pBlockCommentClosingToken : List Nat
  deriving DecidableEq, Repr

/-- Lexer state (`c89str_lexer`).  `pTokenStr`, a pointer into the source in
C, is the corresponding offset here. -/
structure c89str_lexer where
  pText : List Nat
  textLen : Nat
  textOff : Nat
  pTokenStr : Nat
  tokenLen : Nat
  token : Nat
  lineNumber : Nat
  options : c89str_lexer_options
  deriving DecidableEq, Repr

/-- `c89str_lexer_init` (with non-null text): zeroes the state, then sets the
text, resolves a sentinel length by scanning for the terminator, sets the
line number to 1 and installs the default comment delimiters. -/
def c89str_lexer_init (pText : List Nat) (textLen : Nat) : c89str_lexer :=
  { pText := pText
    textLen := if textLen = c89str_npos then c89str_strlen pText else textLen
    textOff := 0
    pTokenStr := 0
    tokenLen := 0
    token := 0
    lineNumber := 1
    options :=
      { skipWhitespace := false
        skipNewlines := false
        skipComments := false
        allowDashesInIdentifiers := false
        pLineCommentOpeningToken := [0x2F, 0x2F]
        pBlockCommentOpeningToken := [0x2F, 0x2A]
        pBlockCommentClosingToken := [0x2A, 0x2F] } }

/-- The embedded-newline scan of `c89str_lexer_set_token`: repeatedly applies
`c89str_utf8_find_next_line` to the token's own span and counts one line per
advance, stopping when the scan reports `nextLineOff == thisLineLen` (no
newline in what remains).  Every advancing iteration moves `runningOff` by at
least one and stays within `tokenLen` for the token shapes the lexer
produces, so fuel `tokenLen + 1` suffices. -/
def c89str_lexer_count_lines_loop (text : List Nat) (tokenStrOff tokenLen : Nat) :
    Nat → Nat → Nat
  | 0, _ => 0
  | fuel + 1, runningOff =>
    let r := c89str_utf8_find_next_line (text.drop (tokenStrOff + runningOff))
      (tokenLen - runningOff)
    if r.1 = r.2 then 0
    else 1 + c89str_lexer_count_lines_loop text tokenStrOff tokenLen fuel (runningOff + r.1)

/-- `c89str_lexer_set_token`: records the token, advances the cursor by the
token's length, adds one line for a newline token, and for comment and string
tokens adds the embedded-newline count of the token's span. -/
def c89str_lexer_set_token (l : c89str_lexer) (token tokenLen : Nat) :
    c89str_lexer × Errno :=
  let l1 := { l with token := token, pTokenStr := l.textOff, tokenLen := tokenLen,
                     textOff := l.textOff + tokenLen }
  let l2 := if token = c89str_token_type_newline then
      { l1 with lineNumber := l1.lineNumber + 1 } else l1
  let l3 := if token = c89str_token_type_comment ∨ token = c89str_token_type_string_double ∨
      token = c89str_token_type_string_single then
      { l2 with lineNumber := l2.lineNumber +
          c89str_lexer_count_lines_loop l.pText l.textOff tokenLen (tokenLen + 1) 0 }
    else l2
  (l3, .success)

/-- `c89str_lexer_set_single_char`. -/
def c89str_lexer_set_single_char (l : c89str_lexer) (c : Nat) : c89str_lexer × Errno :=
  c89str_lexer_set_token l c 1

/-- `c89str_lexer_set_error`: records an error token and returns `EINVAL`. -/
def c89str_lexer_set_error (l : c89str_lexer) (tokenLen : Nat) : c89str_lexer × Errno :=
  ((c89str_lexer_set_token l c89str_token_type_error tokenLen).1, .einval)

/-- `c89str_lexer_parse_integer_suffix`: consumes `u|U` then up to two `l|L`,
or `l|L` (doubled) then optional `u|U`. -/
def c89str_lexer_parse_integer_suffix (l : c89str_lexer) (off : Nat) : Nat :=
  let txt := l.pText
  let len := l.textLen
  if off < len then
    if memGet txt off = 0x75 ∨ memGet txt off = 0x55 then
      let o1 := off + 1
      if o1 < len ∧ (memGet txt o1 = 0x6C ∨ memGet txt o1 = 0x4C) then
        let o2 := o1 + 1
        if o2 < len ∧ (memGet txt o2 = 0x6C ∨ memGet txt o2 = 0x4C) then o2 + 1 else o2
      else o1
    else if memGet txt off = 0x6C ∨ memGet txt off = 0x4C then
      let o1 := off + 1
      if o1 < len ∧ (memGet txt o1 = 0x6C ∨ memGet txt o1 = 0x4C) then
        let o2 := o1 + 1
        if o2 < len ∧ (memGet txt o2 = 0x75 ∨ memGet txt o2 = 0x55) then o2 + 1 else o2
      else if o1 < len ∧ (memGet txt o1 = 0x75 ∨ memGet txt o1 = 0x55) then o1 + 1
      else o1
    else off
  else off

/-- `c89str_lexer_parse_float_suffix`: one of `f F d D l L`. -/
def c89str_lexer_parse_float_suffix (l : c89str_lexer) (off : Nat) : Nat :=
  let txt := l.pText
  let len := l.textLen
  if off < len then
    if memGet txt off = 0x66 ∨ memGet txt off = 0x46 ∨ memGet txt off = 0x64 ∨
        memGet txt off = 0x44 ∨ memGet txt off = 0x6C ∨ memGet txt off = 0x4C then
      off + 1
    else off
  else off

/-- `c89str_lexer_parse_suffix_and_set_token`. -/
def c89str_lexer_parse_suffix_and_set_token (l : c89str_lexer) (token off : Nat) :
    c89str_lexer × Errno :=
  let off2 :=
    if token = c89str_token_type_float_literal_dec ∨
        token = c89str_token_type_float_literal_hex then
      c89str_lexer_parse_float_suffix l off
    else c89str_lexer_parse_integer_suffix l off
  c89str_lexer_set_token l token (off2 - l.textOff)

/-- Generic `while (off < len && pred (txt[off])) off += 1` digit run used by
the numeric-literal cases of `c89str_lexer_next`. -/
def c89str_lexer_scan_while (txt : List Nat) (len : Nat) (pred : Nat → Bool) :
    Nat → Nat → Nat
  | 0, off => off
  | fuel + 1, off =>
    if off < len ∧ pred (memGet txt off) then
      c89str_lexer_scan_while txt len pred fuel (off + 1)
    else off

/-- Radix digit predicate of the hex cases: `0-9a-fA-F`. -/
def c89str_is_hex_digit (b : Nat) : Bool :=
  decide ((0x30 ≤ b ∧ b ≤ 0x39) ∨ (0x61 ≤ b ∧ b ≤ 0x66) ∨ (0x41 ≤ b ∧ b ≤ 0x46))

/-- Decimal digit predicate: `0-9`. -/
def c89str_is_dec_digit (b : Nat) : Bool := decide (0x30 ≤ b ∧ b ≤ 0x39)

/-- String-literal scan of `c89str_lexer_next`: from just past the opening
quote, `for (; off < len; off += 1)`, returning one past the closing quote
when an unescaped `q` is found (a `q` whose predecessor byte is `\\` does not
terminate), and `none` when the loop runs off the end (`off = len`, falling
through to the code after the string checks). -/
def c89str_lexer_scan_string_loop (txt : List Nat) (len q : Nat) : Nat → Nat → Option Nat
  | 0, _ => none
  | fuel + 1, off =>
    if off < len then
      if memGet txt off = q ∧ memGet txt (off - 1) ≠ 0x5C then some (off + 1)
      else c89str_lexer_scan_string_loop txt len q fuel (off + 1)
    else none

/-- Identifier run of `c89str_lexer_next`: grows `tokenLen` while the next
byte is `a-z A-Z 0-9 _`, a dash when enabled, or any byte `>= 0x80`, bounded
by `len - off` and by `tokenMaxLen` (the offset of the next Unicode
whitespace). -/
def c89str_lexer_ident_loop (txt : List Nat) (len off tokenMaxLen : Nat)
    (allowDash : Bool) : Nat → Nat → Nat
  | 0, tokenLen => tokenLen
  | fuel + 1, tokenLen =>
    if tokenLen < len - off then
      let t2 := tokenLen + 1
      if t2 = tokenMaxLen then t2
      else
        let b := memGet txt (off + t2)
        if (0x61 ≤ b ∧ b ≤ 0x7A) ∨ (0x41 ≤ b ∧ b ≤ 0x5A) ∨ (0x30 ≤ b ∧ b ≤ 0x39) ∨
            b = 0x5F ∨ (b = 0x2D ∧ allowDash) ∨ 0x80 ≤ b then
          c89str_lexer_ident_loop txt len off tokenMaxLen allowDash fuel t2
        else t2
    else tokenLen

/-- The decimal arm of the numeric `switch` of `c89str_lexer_next`
(`case '1'..'9'`, also reached by fall-through from `case '0'`). -/
def c89str_lexer_next_decimal (l : c89str_lexer) (txt : List Nat) (len off : Nat) :
    c89str_lexer × Errno :=
  let tokenBeg := off
  let off1 := c89str_lexer_scan_while txt len c89str_is_dec_digit (len + 1) (off + 1)
  if memGet txt off1 = 0x2E ∨ memGet txt off1 = 0x65 ∨ memGet txt off1 = 0x45 then
    let off2 :=
      if memGet txt off1 = 0x2E then
        c89str_lexer_scan_while txt len c89str_is_dec_digit (len + 1) (off1 + 1)
      else off1
    if memGet txt off2 = 0x65 ∨ memGet txt off2 = 0x45 then
      let off3 := off2 + 1
      let off4 := if off3 < len ∧ (memGet txt off3 = 0x2D ∨ memGet txt off3 = 0x2B) then
          off3 + 1 else off3
      if c89str_is_dec_digit (memGet txt off4) then
        let off5 := c89str_lexer_scan_while txt len c89str_is_dec_digit (len + 1) (off4 + 1)
        c89str_lexer_parse_suffix_and_set_token l c89str_token_type_float_literal_dec off5
      else c89str_lexer_set_error l (off4 - tokenBeg)
    else c89str_lexer_parse_suffix_and_set_token l c89str_token_type_float_literal_dec off2
  else c89str_lexer_parse_suffix_and_set_token l c89str_token_type_integer_literal_dec off1

/-- The `switch (txt[off])` of `c89str_lexer_next`, reached after the
whitespace, comment and string checks.  Faithful notabilia: every `0x`/`0X`
literal is tagged `c89str_token_type_float_literal_hex` whatever follows, and
a leading `0` with no hex/binary/octal qualifier falls through to the decimal
arm. -/
def c89str_lexer_next_switch (l : c89str_lexer) (txt : List Nat) (len off : Nat) :
    c89str_lexer × Errno :=
  let b := memGet txt off
  if b = 0x30 then
    if off + 1 < len then
      if memGet txt (off + 1) = 0x78 ∨ memGet txt (off + 1) = 0x58 then
        let tokenBeg := off
        let o1 := c89str_lexer_scan_while txt len c89str_is_hex_digit (len + 1) (off + 2)
        let o2 := if memGet txt o1 = 0x2E then
            c89str_lexer_scan_while txt len c89str_is_hex_digit (len + 1) (o1 + 1)
          else o1
        if memGet txt o2 = 0x70 ∨ memGet txt o2 = 0x50 then
          let o3 := o2 + 1
          let o4 := if o3 < len ∧ (memGet txt o3 = 0x2D ∨ memGet txt o3 = 0x2B) then
              o3 + 1 else o3
          if c89str_is_hex_digit (memGet txt o4) then
            let o5 := c89str_lexer_scan_while txt len c89str_is_hex_digit (len + 1) (o4 + 1)
            c89str_lexer_parse_suffix_and_set_token l c89str_token_type_float_literal_hex o5
          else c89str_lexer_set_error l (o4 - tokenBeg)
        else c89str_lexer_parse_suffix_and_set_token l c89str_token_type_float_literal_hex o2
      else if memGet txt (off + 1) = 0x62 ∨ memGet txt (off + 1) = 0x42 then
        let o1 := c89str_lexer_scan_while txt len
          (fun c => decide (0x30 ≤ c ∧ c ≤ 0x31)) (len + 1) (off + 2)
        c89str_lexer_parse_suffix_and_set_token l c89str_token_type_integer_literal_bin o1
      else
        let newOff := c89str_lexer_scan_while txt len (fun c => c == 0x30) (len + 1) (off + 1)
        if 0x31 ≤ memGet txt newOff ∧ memGet txt newOff ≤ 0x37 then
          let o1 := c89str_lexer_scan_while txt len
            (fun c => decide (0x30 ≤ c ∧ c ≤ 0x37)) (len + 1) newOff
          c89str_lexer_parse_suffix_and_set_token l c89str_token_type_integer_literal_oct o1
        else c89str_lexer_next_decimal l txt len off
    else c89str_lexer_next_decimal l txt len off
  else if 0x31 ≤ b ∧ b ≤ 0x39 then c89str_lexer_next_decimal l txt len off
  else if b = 0x3D then
    if off + 1 < len ∧ memGet txt (off + 1) = 0x3D then
      c89str_lexer_set_token l c89str_token_type_eqeq 2
    else c89str_lexer_set_single_char l b
  else if b = 0x21 then
    if off + 1 < len ∧ memGet txt (off + 1) = 0x3D then
      c89str_lexer_set_token l c89str_token_type_noteq 2
    else c89str_lexer_set_single_char l b
  else if b = 0x3C then
    if off + 1 < len ∧ memGet txt (off + 1) = 0x3D then
      c89str_lexer_set_token l c89str_token_type_lteq 2
    else if off + 1 < len ∧ memGet txt (off + 1) = 0x3C then
      if off + 2 < len ∧ memGet txt (off + 2) = 0x3D then
        c89str_lexer_set_token l c89str_token_type_shleq 3
      else c89str_lexer_set_token l c89str_token_type_shl 2
    else c89str_lexer_set_single_char l b
  else if b = 0x3E then
    if off + 1 < len ∧ memGet txt (off + 1) = 0x3D then
      c89str_lexer_set_token l c89str_token_type_gteq 2
    else if off + 1 < len ∧ memGet txt (off + 1) = 0x3E then
      if off + 2 < len ∧ memGet txt (off + 2) = 0x3D then
        c89str_lexer_set_token l c89str_token_type_shreq 3
      else c89str_lexer_set_token l c89str_token_type_shr 2
    else c89str_lexer_set_single_char l b
  else if b = 0x26 then
    if off + 1 < len ∧ memGet txt (off + 1) = 0x26 then
      c89str_lexer_set_token l c89str_token_type_andand 2
    else if off + 1 < len ∧ memGet txt (off + 1) = 0x3D then
      c89str_lexer_set_token l c89str_token_type_andeq 2
    else c89str_lexer_set_single_char l b
  else if b = 0x7C then
    if off + 1 < len ∧ memGet txt (off + 1) = 0x7C then
      c89str_lexer_set_token l c89str_token_type_oror 2
    else if off + 1 < len ∧ memGet txt (off + 1) = 0x3D then
      c89str_lexer_set_token l c89str_token_type_oreq 2
    else c89str_lexer_set_single_char l b
  else if b = 0x2B then
    if off + 1 < len ∧ memGet txt (off + 1) = 0x2B then
      c89str_lexer_set_token l c89str_token_type_plusplus 2
    else if off + 1 < len ∧ memGet txt (off + 1) = 0x3D then
      c89str_lexer_set_token l c89str_token_type_pluseq 2
    else c89str_lexer_set_single_char l b
  else if b = 0x2D then
    if off + 1 < len ∧ memGet txt (off + 1) = 0x2D then
      c89str_lexer_set_token l c89str_token_type_minusminus 2
    else if off + 1 < len ∧ memGet txt (off + 1) = 0x3D then
      c89str_lexer_set_token l c89str_token_type_minuseq 2
    else c89str_lexer_set_single_char l b
  else if b = 0x2A then
    if off + 1 < len ∧ memGet txt (off + 1) = 0x3D then
      c89str_lexer_set_token l c89str_token_type_muleq 2
    else c89str_lexer_set_single_char l b
  else if b = 0x2F then
    if off + 1 < len ∧ memGet txt (off + 1) = 0x3D then
      c89str_lexer_set_token l c89str_token_type_diveq 2
    else c89str_lexer_set_single_char l b
  else if b = 0x25 then
    if off + 1 < len ∧ memGet txt (off + 1) = 0x3D then
      c89str_lexer_set_token l c89str_token_type_modeq 2
    else c89str_lexer_set_single_char l b
  else if b = 0x5E then
    if off + 1 < len ∧ memGet txt (off + 1) = 0x3D then
      c89str_lexer_set_token l c89str_token_type_xoreq 2
    else c89str_lexer_set_single_char l b
  else if b = 0x3A then
    if off + 1 < len ∧ memGet txt (off + 1) = 0x3A then
      c89str_lexer_set_token l c89str_token_type_coloncolon 2
    else c89str_lexer_set_single_char l b
  else if b = 0x2E then
    if off + 2 < len ∧ memGet txt (off + 1) = 0x2E ∧ memGet txt (off + 2) = 0x2E then
      c89str_lexer_set_token l c89str_token_type_ellipsis 3
    else c89str_lexer_set_single_char l b
  else
    if (0x61 ≤ b ∧ b ≤ 0x7A) ∨ (0x41 ≤ b ∧ b ≤ 0x5A) ∨ b = 0x5F ∨ 0x80 ≤ b then
      let tokenMaxLen := c89str_utf8_find_next_whitespace (txt.drop off) (len - off)
      let tokenLen := c89str_lexer_ident_loop txt len off tokenMaxLen
        l.options.allowDashesInIdentifiers (len - off + 1) 0
      c89str_lexer_set_token l c89str_token_type_identifier tokenLen
    else c89str_lexer_set_single_char l b

/-- The single-quoted-string check of `c89str_lexer_next` and everything
after it.  `off` can be `len` here: a double-quoted string with no closing
quote falls through with its scan offset, and the reads at `len` hit the
implicit terminator. -/
def c89str_lexer_next_after_strings (l : c89str_lexer) (txt : List Nat) (len off : Nat) :
    c89str_lexer × Errno :=
  if memGet txt off = 0x27 then
    match c89str_lexer_scan_string_loop txt len 0x27 (len + 1) (off + 1) with
    | some offEnd =>
      c89str_lexer_set_token l c89str_token_type_string_double (offEnd - l.textOff)
    | none => c89str_lexer_next_switch l txt len len
  else c89str_lexer_next_switch l txt len off

/-- `c89str_lexer_next` with the skip options all `false` (their state after
`c89str_lexer_init`), so the produce-next loop runs exactly once.  Priority
order at the cursor: end check, whitespace/newline, line comment, block
comment, double-quoted string, single-quoted string, then the numeric /
operator / identifier switch.  At the end of the input it records an EOF
token of length zero and returns `ENOMEM`. -/
def c89str_lexer_next (l : c89str_lexer) : c89str_lexer × Errno :=
  let txt := l.pText
  let off := l.textOff
  let len := l.textLen
  if off = len then
    ((c89str_lexer_set_token l c89str_token_type_eof 0).1, .enomem)
  else
    let whitespaceLen := c89str_utf8_ltrim_offset (txt.drop off) (len - off)
    if whitespaceLen > 0 then
      let r := c89str_utf8_find_next_line (txt.drop off) (len - off)
      if r.2 > whitespaceLen then
        c89str_lexer_set_token l c89str_token_type_whitespace whitespaceLen
      else if r.2 ≤ whitespaceLen ∧ r.2 > 0 then
        c89str_lexer_set_token l c89str_token_type_whitespace r.2
      else c89str_lexer_set_token l c89str_token_type_newline (r.1 - r.2)
    else if c89str_begins_with (txt.drop off) (len - off)
        l.options.pLineCommentOpeningToken c89str_npos then
      let openingLen := c89str_strlen l.options.pLineCommentOpeningToken
      let r := c89str_utf8_find_next_line (txt.drop (off + openingLen))
        (len - (off + openingLen))
      c89str_lexer_set_token l c89str_token_type_comment (r.2 + openingLen)
    else if c89str_begins_with (txt.drop off) (len - off)
        l.options.pBlockCommentOpeningToken c89str_npos then
      let openingLen := c89str_strlen l.options.pBlockCommentOpeningToken
      let closingLen := c89str_strlen l.options.pBlockCommentClosingToken
      let fr := c89str_findn (txt.drop (off + openingLen)) (len - (off + openingLen))
        l.options.pBlockCommentClosingToken closingLen
      if fr.1 ≠ Errno.success then
        c89str_lexer_set_token l c89str_token_type_comment
          ((len - (off + openingLen)) + openingLen)
      else c89str_lexer_set_token l c89str_token_type_comment
        (fr.2 + openingLen + closingLen)
    else if memGet txt off = 0x22 then
      match c89str_lexer_scan_string_loop txt len 0x22 (len + 1) (off + 1) with
      | some offEnd =>
        c89str_lexer_set_token l c89str_token_type_string_double (offEnd - l.textOff)
      | none => c89str_lexer_next_after_strings l txt len len
    else c89str_lexer_next_after_strings l txt len off

/-- Iterate `c89str_lexer_next` `n` times from a state, collecting for each
produced token its `(token, pTokenStr, tokenLen)` record in order. -/
def c89str_lexer_run (l : c89str_lexer) : Nat → c89str_lexer × List (Nat × Nat × Nat)
  | 0 => (l, [])
  | n + 1 =>
    let l2 := (c89str_lexer_next l).1
    let r := c89str_lexer_run l2 n
    (r.1, (l2.token, l2.pTokenStr, l2.tokenLen) :: r.2)

/-- Line-number contribution of one produced token, exactly as
`c89str_lexer_set_token` adds it: 1 for a newline token, the embedded-newline
count of the token's span for comment and string tokens, 0 otherwise. -/
def c89str_token_line_delta (text : List Nat) (rec : Nat × Nat × Nat) : Nat :=
  (if rec.1 = c89str_token_type_newline then 1 else 0) +
  (if rec.1 = c89str_token_type_comment ∨ rec.1 = c89str_token_type_string_double ∨
      rec.1 = c89str_token_type_string_single then
    c89str_lexer_count_lines_loop text rec.2.1 rec.2.2 (rec.2.2 + 1) 0
  else 0)

/-- The bytes of `0x1A + 3.14e-2 // trailing\n` (the lexing scenario of the
specification). -/
def c89str_lexer_example_text : List Nat :=
  [0x30, 0x78, 0x31, 0x41, 0x20, 0x2B, 0x20, 0x33, 0x2E, 0x31, 0x34, 0x65, 0x2D, 0x32,
   0x20, 0x2F, 0x2F, 0x20, 0x74, 0x72, 0x61, 0x69, 0x6C, 0x69, 0x6E, 0x67, 0x0A]

/-- The bytes of `a\n/*x\r\ny*/\n"s\nt"\nb`: 5 newlines counting `\r\n` as
one, with one newline embedded in a block comment (the `\r\n`) and one inside
a double-quoted string. -/
def c89str_line_count_example_text : List Nat :=
  [0x61, 0x0A, 0x2F, 0x2A, 0x78, 0x0D, 0x0A, 0x79, 0x2A, 0x2F, 0x0A, 0x22, 0x73, 0x0A,
   0x74, 0x22, 0x0A, 0x62]

/-! Theorems.  General-purpose lemmas come first, then one theorem per claim
(with its witness or counterexample where required). -/

/-- Right shift distributes over bitwise and. -/
theorem land_shiftRight_distrib (a b n : Nat) :
    (a &&& b) >>> n = (a >>> n) &&& (b >>> n) := by
  apply Nat.eq_of_testBit_eq
  intro i
  simp [Nat.testBit_shiftRight, Nat.testBit_and]

/-- Reading a dropped list is reading the original at the shifted index. -/
theorem memGet_drop (l : List Nat) (n i : Nat) : memGet (l.drop n) i = memGet l (n + i) := by
  simp [memGet, List.getD_eq_getElem?_getD, List.getElem?_drop]

/-- The terminator-bounded swap arm maps the prefix before the first zero
unit and leaves the zero and everything after it untouched. -/
theorem c89str_utf16_swap_endian_while_append (l1 l2 : List Nat)
    (h : ∀ x ∈ l1, x ≠ 0) :
    c89str_utf16_swap_endian_while (l1 ++ 0 :: l2) =
      l1.map c89str_swap_endian_uint16 ++ 0 :: l2 := by
  induction l1 with
  | nil => simp [c89str_utf16_swap_endian_while]
  | cons x xs ih =>
    have hx : x ≠ 0 := h x (by simp)
    simp only [List.cons_append, c89str_utf16_swap_endian_while, if_neg hx, List.map_cons]
    rw [show xs.append (0 :: l2) = xs ++ 0 :: l2 from rfl, ih (fun y hy => h y (by simp [hy]))]

/-- As `c89str_utf16_swap_endian_while_append`, for the 32-bit variant. -/
theorem c89str_utf32_swap_endian_while_append (l1 l2 : List Nat)
    (h : ∀ x ∈ l1, x ≠ 0) :
    c89str_utf32_swap_endian_while (l1 ++ 0 :: l2) =
      l1.map c89str_swap_endian_uint32 ++ 0 :: l2 := by
  induction l1 with
  | nil => simp [c89str_utf32_swap_endian_while]
  | cons x xs ih =>
    have hx : x ≠ 0 := h x (by simp)
    simp only [List.cons_append, c89str_utf32_swap_endian_while, if_neg hx, List.map_cons]
    rw [show xs.append (0 :: l2) = xs ++ 0 :: l2 from rfl, ih (fun y hy => h y (by simp [hy]))]

/-- C8: for every code point above the BMP and within the Unicode range,
`c89str_utf32_cp_to_utf16_pair` yields a first unit in `[0xD800, 0xDBFF]` and
a second in `[0xDC00, 0xDFFF]`, and `c89str_utf16_pair_to_utf32_cp` decodes
the pair back to exactly the original code point. -/
theorem c89str_surrogate_pair_roundtrip (cp : Nat) (h1 : 0xFFFF < cp)
    (h2 : cp ≤ 0x10FFFF) :
    0xD800 ≤ (c89str_utf32_cp_to_utf16_pair cp).1 ∧
    (c89str_utf32_cp_to_utf16_pair cp).1 ≤ 0xDBFF ∧
    0xDC00 ≤ (c89str_utf32_cp_to_utf16_pair cp).2 ∧
    (c89str_utf32_cp_to_utf16_pair cp).2 ≤ 0xDFFF ∧
    c89str_utf16_pair_to_utf32_cp (c89str_utf32_cp_to_utf16_pair cp) = cp := by
  have hu : cp - 0x10000 < 2 ^ 20 := by omega
  set u := cp - 0x10000 with hudef
  have hq : u / 2 ^ 10 < 2 ^ 10 := by omega
  have hr : u % 2 ^ 10 < 2 ^ 10 := Nat.mod_lt _ (by norm_num)
  have hmask1 : (u &&& 0xFFC00) >>> 10 = u / 2 ^ 10 := by
    rw [land_shiftRight_distrib]
    rw [show ((0xFFC00 : Nat) >>> 10) = 2 ^ 10 - 1 from by decide]
    rw [Nat.and_pow_two_sub_one_eq_mod, Nat.shiftRight_eq_div_pow]
    exact Nat.mod_eq_of_lt hq
  have hmask2 : u &&& 0x3FF = u % 2 ^ 10 := by
    rw [show (0x3FF : Nat) = 2 ^ 10 - 1 from by decide, Nat.and_pow_two_sub_one_eq_mod]
  have hhi : (0xD800 : Nat) ||| (u / 2 ^ 10) = 0xD800 + u / 2 ^ 10 := by
    rw [show (0xD800 : Nat) = 2 ^ 10 * 54 from by decide]
    exact (Nat.mul_add_lt_is_or hq 54).symm
  have hlo : (0xDC00 : Nat) ||| (u % 2 ^ 10) = 0xDC00 + u % 2 ^ 10 := by
    rw [show (0xDC00 : Nat) = 2 ^ 10 * 55 from by decide]
    exact (Nat.mul_add_lt_is_or hr 55).symm
  have hp1 : (c89str_utf32_cp_to_utf16_pair cp).1 = 0xD800 + u / 2 ^ 10 := by
    show (0xD800 ||| ((u &&& 0xFFC00) >>> 10)) % 2 ^ 16 = _
    rw [hmask1, hhi]
    exact Nat.mod_eq_of_lt (by omega)
  have hp2 : (c89str_utf32_cp_to_utf16_pair cp).2 = 0xDC00 + u % 2 ^ 10 := by
    show (0xDC00 ||| ((u &&& 0x3FF) >>> 0)) % 2 ^ 16 = _
    rw [Nat.shiftRight_zero, hmask2, hlo]
    exact Nat.mod_eq_of_lt (by omega)
  refine ⟨by omega, by omega, by omega, by omega, ?_⟩
  show (((c89str_utf32_cp_to_utf16_pair cp).1 &&& 0x3FF) <<< 10 |||
    ((c89str_utf32_cp_to_utf16_pair cp).2 &&& 0x3FF) <<< 0) + 0x10000 = cp
  rw [hp1, hp2]
  have e1 : (0xD800 + u / 2 ^ 10) &&& 0x3FF = u / 2 ^ 10 := by
    rw [show (0x3FF : Nat) = 2 ^ 10 - 1 from by decide, Nat.and_pow_two_sub_one_eq_mod]
    omega
  have e2 : (0xDC00 + u % 2 ^ 10) &&& 0x3FF = u % 2 ^ 10 := by
    rw [show (0x3FF : Nat) = 2 ^ 10 - 1 from by decide, Nat.and_pow_two_sub_one_eq_mod]
    omega
  rw [e1, e2, Nat.shiftLeft_zero, Nat.shiftLeft_eq]
  rw [show u / 2 ^ 10 * 2 ^ 10 = 2 ^ 10 * (u / 2 ^ 10) from by ring]
  rw [← Nat.mul_add_lt_is_or hr (u / 2 ^ 10)]
  omega

/-- Witness for C8 at the concrete code point `0x1F600`. -/
theorem c89str_surrogate_pair_roundtrip_witness :
    0xD800 ≤ (c89str_utf32_cp_to_utf16_pair 0x1F600).1 ∧
    (c89str_utf32_cp_to_utf16_pair 0x1F600).1 ≤ 0xDBFF ∧
    0xDC00 ≤ (c89str_utf32_cp_to_utf16_pair 0x1F600).2 ∧
    (c89str_utf32_cp_to_utf16_pair 0x1F600).2 ≤ 0xDFFF ∧
    c89str_utf16_pair_to_utf32_cp (c89str_utf32_cp_to_utf16_pair 0x1F600) = 0x1F600 :=
  c89str_surrogate_pair_roundtrip 0x1F600 (by decide) (by decide)

/-- C10: with any non-sentinel `count` both swap routines ignore `count` and
byte-swap exactly the units before the first zero unit, leaving the zero and
every later unit untouched; consequently the little-endian output variant on
a big-endian host (`c89str_utf8_to_utf16le` with `hostLE = false`) leaves the
`0x42` unit that follows the embedded zero of `[0x41, 0x00, 0x42]`
unswapped. -/
theorem c89str_swap_endian_ignores_bounded_count :
    (∀ (l1 l2 : List Nat) (count : Nat), count ≠ c89str_npos → (∀ x ∈ l1, x ≠ 0) →
      c89str_utf16_swap_endian (l1 ++ 0 :: l2) count =
        l1.map c89str_swap_endian_uint16 ++ 0 :: l2) ∧
    (∀ (l1 l2 : List Nat) (count : Nat), count ≠ c89str_npos → (∀ x ∈ l1, x ≠ 0) →
      c89str_utf32_swap_endian (l1 ++ 0 :: l2) count =
        l1.map c89str_swap_endian_uint32 ++ 0 :: l2) ∧
    c89str_utf8_to_utf16le false 8 [0x41, 0x00, 0x42] 3 0 =
      (.success, [0x4100, 0x0000, 0x0042], 3, 3) := by
  refine ⟨?_, ?_, by decide⟩
  · intro l1 l2 count hc h
    rw [c89str_utf16_swap_endian, if_neg hc]
    exact c89str_utf16_swap_endian_while_append l1 l2 h
  · intro l1 l2 count hc h
    rw [c89str_utf32_swap_endian, if_neg hc]
    exact c89str_utf32_swap_endian_while_append l1 l2 h

/-- Witness for C10 at concrete lists and a concrete non-sentinel count. -/
theorem c89str_swap_endian_ignores_bounded_count_witness :
    c89str_utf16_swap_endian ([0x41] ++ 0 :: [0x42]) 3 =
      [0x41].map c89str_swap_endian_uint16 ++ 0 :: [0x42] ∧
    c89str_utf32_swap_endian ([0x41] ++ 0 :: [0x42]) 3 =
      [0x41].map c89str_swap_endian_uint32 ++ 0 :: [0x42] :=
  ⟨c89str_swap_endian_ignores_bounded_count.1 [0x41] [0x42] 3 (by decide) (by decide),
   c89str_swap_endian_ignores_bounded_count.2.1 [0x41] [0x42] 3 (by decide) (by decide)⟩

/-- C1: on the fixed-length input `6D F0 9F 98 80` (ASCII `m` followed by a
well-formed 4-byte sequence for U+1F600) with no flags, the measure call
succeeds reporting 2 output units, while the matching convert call with ample
capacity succeeds producing 3 units (`m` plus a surrogate pair), both
consuming all 5 input bytes: measure and convert disagree on the produced
output length.  (The measure decodes the 4-byte sequence from `pUTF8[0..3]`
instead of `pUTF8[iUTF8..]`, misreads the code point as the invalid value
0x1707D8 and counts one replacement unit.) -/
theorem c89str_measure_convert_disagree_utf8_to_utf16 :
    c89str_utf8_to_utf16_len [0x6D, 0xF0, 0x9F, 0x98, 0x80] 5 0 =
      (.success, 2, 5) ∧
    c89str_utf8_to_utf16ne 8 [0x6D, 0xF0, 0x9F, 0x98, 0x80] 5 0 =
      (.success, [0x6D, 0xD83D, 0xDE00], 3, 5) := by decide

/-- C2: measuring the length-bounded buffer `E2 82` (the first two of the
three bytes of a 3-byte UTF-8 sequence) reports success with one output unit
and three (!) input bytes consumed, for every flag value: the truncated tail
is not reported as invalid-argument, because the guard `iUTF8+2 > utf8Len`
only fires when the lead byte is the final byte. -/
theorem c89str_truncated_tail_measure_succeeds (flags : Nat) :
    c89str_utf8_to_utf16_len [0xE2, 0x82] 2 flags = (.success, 1, 3) := by
  simp [c89str_utf8_to_utf16_len, c89str_utf8_to_utf16_len_fixed_loop, c89str_utf8_has_bom,
    memGet, c89str_npos, c89str_is_invalid_utf8_octet,
    show (226 &&& 224 : Nat) = 224 from by decide,
    show (226 &&& 240 : Nat) = 224 from by decide]

/-- Witness for C2 at the flag value `C89STR_ERROR_ON_INVALID_CODE_POINT`. -/
theorem c89str_truncated_tail_measure_succeeds_witness :
    c89str_utf8_to_utf16_len [0xE2, 0x82] 2 C89STR_ERROR_ON_INVALID_CODE_POINT =
      (.success, 1, 3) :=
  c89str_truncated_tail_measure_succeeds C89STR_ERROR_ON_INVALID_CODE_POINT

/-- C4: on a little-endian host, converting the bounded UTF-16 buffer
`[0xFEFF, 0x0041, 0x0042]` (BOM then `A` then `B`) with no flags yields the
single byte `B` and reports 2 units consumed, while converting the same
buffer with the BOM manually stripped yields `A B` with 2 units consumed:
the BOM branch of `c89str_utf16_to_utf8` advances past the BOM twice and
drops the first real code unit, so the output is not byte-identical and the
consumed count does not exceed the stripped variant's count by one. -/
theorem c89str_utf16_to_utf8_bom_double_skip :
    c89str_utf16_to_utf8 true 8 [0xFEFF, 0x0041, 0x0042] 3 0 =
      (.success, [0x42], 1, 2) ∧
    c89str_utf16_to_utf8 true 8 [0x0041, 0x0042] 2 0 =
      (.success, [0x41, 0x42], 2, 2) ∧
    (c89str_utf16_to_utf8 true 8 [0xFEFF, 0x0041, 0x0042] 3 0).2.1 ≠
      (c89str_utf16_to_utf8 true 8 [0x0041, 0x0042] 2 0).2.1 ∧
    (c89str_utf16_to_utf8 true 8 [0xFEFF, 0x0041, 0x0042] 3 0).2.2.2 ≠
      (c89str_utf16_to_utf8 true 8 [0x0041, 0x0042] 2 0).2.2.2 + 1 := by decide

/-- C7: converting the 4-byte buffer `C1 00 00 00` (the string consisting
solely of the invalid lead byte `0xC1`, passed null-terminated) with default
flags yields exactly one replacement code point U+FFFD and consumes one
source byte; with `ERROR_ON_INVALID_CODE_POINT` it fails with the
invalid-code-point error and consumes zero bytes.  The measure call agrees
in all four respects. -/
theorem c89str_invalid_lead_byte_replacement_and_strict :
    c89str_utf8_to_utf16ne 4 [0xC1, 0, 0, 0] c89str_npos 0 =
      (.success, [C89STR_UNICODE_REPLACEMENT_CODE_POINT], 1, 1) ∧
    c89str_utf8_to_utf16ne 4 [0xC1, 0, 0, 0] c89str_npos
      C89STR_ERROR_ON_INVALID_CODE_POINT = (.ecodepoint, [], 0, 0) ∧
    c89str_utf8_to_utf16_len [0xC1, 0, 0, 0] c89str_npos 0 = (.success, 1, 1) ∧
    c89str_utf8_to_utf16_len [0xC1, 0, 0, 0] c89str_npos
      C89STR_ERROR_ON_INVALID_CODE_POINT = (.ecodepoint, 0, 0) := by decide

/-- C3: lexing `0x1A + 3.14e-2 // trailing\n` with the default options yields
hex token, whitespace, `+`, whitespace, decimal float `3.14e-2`, whitespace,
comment `// trailing`, newline, EOF, with the spans the specification
describes -- except that the `0x1A` token is tagged
`c89str_token_type_float_literal_hex`: the hex arm of the numeric switch
passes that kind unconditionally, so the hex integer kind (which the claim
requires for a literal with no `.` and no `p`/`P` exponent, and which the
enum's own comment documents as "e.g. 0x12AB") is never produced. -/
theorem c89str_lex_example_tags_hex_as_float :
    (c89str_lexer_run (c89str_lexer_init c89str_lexer_example_text 27) 9).2 =
      [(c89str_token_type_float_literal_hex, 0, 4),
       (c89str_token_type_whitespace, 4, 1),
       (0x2B, 5, 1),
       (c89str_token_type_whitespace, 6, 1),
       (c89str_token_type_float_literal_dec, 7, 7),
       (c89str_token_type_whitespace, 14, 1),
       (c89str_token_type_comment, 15, 11),
       (c89str_token_type_newline, 26, 1),
       (c89str_token_type_eof, 27, 0)] ∧
    c89str_token_type_float_literal_hex ≠ c89str_token_type_integer_literal_hex := by
  decide

/-- One `c89str_lexer_next` call at the end of the input: EOF token of length
zero, cursor unchanged, line number unchanged, return value `ENOMEM`. -/
theorem c89str_lexer_next_eof_step (l : c89str_lexer) (h : l.textOff = l.textLen) :
    c89str_lexer_next l =
      ({ l with
          token := c89str_token_type_eof
          pTokenStr := l.textOff
          tokenLen := 0
          textOff := l.textOff }, .enomem) := by
  unfold c89str_lexer_next
  rw [if_pos h]
  unfold c89str_lexer_set_token
  norm_num [c89str_token_type_eof, c89str_token_type_newline, c89str_token_type_comment,
    c89str_token_type_string_double, c89str_token_type_string_single,
    C89STR_UNICODE_MAX_CODE_POINT]

/-- C6 (counterexample to the claim as stated): the value returned by
`c89str_lexer_next` at end of input is `ENOMEM` -- the very code with which
the conversion functions signal insufficient capacity -- so the end-of-data
signal is not distinct from the insufficient-capacity error kind. -/
theorem c89str_lexer_eof_signal_equals_enomem :
    (c89str_lexer_next (c89str_lexer_init [] 0)).2 = Errno.enomem ∧
    (c89str_utf8_to_utf16ne 1 [0x41] 1 0).1 = Errno.enomem := by decide

/-- C6 (amended): when the cursor equals the total text length,
`c89str_lexer_next` records an EOF token of length zero, leaves the cursor
and line number unchanged, and returns `ENOMEM` as the end-of-data signal --
the same code as the insufficient-capacity error, not a distinct one -- and
every subsequent call does exactly the same again. -/
theorem c89str_lexer_eof_repeats (l : c89str_lexer) (h : l.textOff = l.textLen) :
    (c89str_lexer_next l).2 = Errno.enomem ∧
    (c89str_lexer_next l).1.token = c89str_token_type_eof ∧
    (c89str_lexer_next l).1.tokenLen = 0 ∧
    (c89str_lexer_next l).1.textOff = l.textOff ∧
    (c89str_lexer_next l).1.textLen = l.textLen ∧
    (c89str_lexer_next l).1.lineNumber = l.lineNumber ∧
    (c89str_lexer_next (c89str_lexer_next l).1).2 = Errno.enomem ∧
    (c89str_lexer_next (c89str_lexer_next l).1).1.token = c89str_token_type_eof ∧
    (c89str_lexer_next (c89str_lexer_next l).1).1.tokenLen = 0 ∧
    (c89str_lexer_next (c89str_lexer_next l).1).1.textOff = l.textOff := by
  have h1 := c89str_lexer_next_eof_step l h
  rw [h1]
  have h2 := c89str_lexer_next_eof_step
    ({ l with
        token := c89str_token_type_eof
        pTokenStr := l.textOff
        tokenLen := 0
        textOff := l.textOff }) (by simpa using h)
  rw [h2]
  simp [h]

/-- Witness for C6's amended theorem at the empty source. -/
theorem c89str_lexer_eof_repeats_witness :
    (c89str_lexer_next (c89str_lexer_init [] 0)).2 = Errno.enomem ∧
    (c89str_lexer_next (c89str_lexer_init [] 0)).1.token = c89str_token_type_eof ∧
    (c89str_lexer_next (c89str_lexer_init [] 0)).1.tokenLen = 0 ∧
    (c89str_lexer_next (c89str_lexer_init [] 0)).1.textOff =
      (c89str_lexer_init [] 0).textOff ∧
    (c89str_lexer_next (c89str_lexer_init [] 0)).1.textLen =
      (c89str_lexer_init [] 0).textLen ∧
    (c89str_lexer_next (c89str_lexer_init [] 0)).1.lineNumber =
      (c89str_lexer_init [] 0).lineNumber ∧
    (c89str_lexer_next (c89str_lexer_next (c89str_lexer_init [] 0)).1).2 = Errno.enomem ∧
    (c89str_lexer_next (c89str_lexer_next (c89str_lexer_init [] 0)).1).1.token =
      c89str_token_type_eof ∧
    (c89str_lexer_next (c89str_lexer_next (c89str_lexer_init [] 0)).1).1.tokenLen = 0 ∧
    (c89str_lexer_next (c89str_lexer_next (c89str_lexer_init [] 0)).1).1.textOff =
      (c89str_lexer_init [] 0).textOff :=
  c89str_lexer_eof_repeats (c89str_lexer_init [] 0) (by decide)

/-- `c89str_lexer_set_token` is idempotent in shape: helper for the shape
lemmas below. -/
theorem c89str_set_token_shape (l : c89str_lexer) (t n : Nat) :
    ∃ a b, (c89str_lexer_set_token l t n).1 = (c89str_lexer_set_token l a b).1 :=
  ⟨t, n, rfl⟩

/-- `c89str_lexer_parse_suffix_and_set_token` ends in `c89str_lexer_set_token`. -/
theorem c89str_parse_suffix_shape (l : c89str_lexer) (tok off : Nat) :
    ∃ t n, (c89str_lexer_parse_suffix_and_set_token l tok off).1 =
      (c89str_lexer_set_token l t n).1 := by
  unfold c89str_lexer_parse_suffix_and_set_token
  exact ⟨tok, _, rfl⟩

/-- `c89str_lexer_set_error` ends in `c89str_lexer_set_token`. -/
theorem c89str_set_error_shape (l : c89str_lexer) (m : Nat) :
    ∃ t n, (c89str_lexer_set_error l m).1 = (c89str_lexer_set_token l t n).1 :=
  ⟨c89str_token_type_error, m, rfl⟩

/-- `c89str_lexer_set_single_char` ends in `c89str_lexer_set_token`. -/
theorem c89str_set_single_char_shape (l : c89str_lexer) (c : Nat) :
    ∃ t n, (c89str_lexer_set_single_char l c).1 = (c89str_lexer_set_token l t n).1 :=
  ⟨c, 1, rfl⟩

/-- Every path through the decimal numeric arm ends in
`c89str_lexer_set_token` applied to the pre-call state. -/
theorem c89str_next_decimal_shape (l : c89str_lexer) (txt : List Nat) (len off : Nat) :
    ∃ t n, (c89str_lexer_next_decimal l txt len off).1 = (c89str_lexer_set_token l t n).1 := by
  unfold c89str_lexer_next_decimal
  dsimp only
  repeat' first | exact c89str_parse_suffix_shape l _ _ | exact c89str_set_error_shape l _ | split

set_option maxHeartbeats 1000000 in
/-- Every path through the numeric / operator / identifier switch ends in
`c89str_lexer_set_token` applied to the pre-call state. -/
theorem c89str_next_switch_shape (l : c89str_lexer) (txt : List Nat) (len off : Nat) :
    ∃ t n, (c89str_lexer_next_switch l txt len off).1 = (c89str_lexer_set_token l t n).1 := by
  unfold c89str_lexer_next_switch
  by_cases h0 : memGet txt off = 48
  · rw [if_pos h0]
    by_cases hL : off + 1 < len
    · rw [if_pos hL]
      by_cases hX : memGet txt (off + 1) = 120 ∨ memGet txt (off + 1) = 88
      · rw [if_pos hX]
        dsimp only
        repeat' first
          | exact c89str_parse_suffix_shape l _ _
          | exact c89str_set_error_shape l _
          | split
      · rw [if_neg hX]
        by_cases hB : memGet txt (off + 1) = 98 ∨ memGet txt (off + 1) = 66
        · rw [if_pos hB]
          exact c89str_parse_suffix_shape l _ _
        · rw [if_neg hB]
          dsimp only
          repeat' first
            | exact c89str_parse_suffix_shape l _ _
            | exact c89str_next_decimal_shape l txt len off
            | split
    · rw [if_neg hL]
      exact c89str_next_decimal_shape l txt len off
  · rw [if_neg h0]
    by_cases h19 : 0x31 ≤ memGet txt off ∧ memGet txt off ≤ 0x39
    · rw [if_pos h19]
      exact c89str_next_decimal_shape l txt len off
    rw [if_neg h19]
    by_cases hc1 : memGet txt off = 0x3D
    · rw [if_pos hc1]
      repeat' first
        | exact c89str_set_token_shape l _ _ | exact c89str_set_single_char_shape l _ | split
    rw [if_neg hc1]
    by_cases hc2 : memGet txt off = 0x21
    · rw [if_pos hc2]
      repeat' first
        | exact c89str_set_token_shape l _ _ | exact c89str_set_single_char_shape l _ | split
    rw [if_neg hc2]
    by_cases hc3 : memGet txt off = 0x3C
    · rw [if_pos hc3]
      repeat' first
        | exact c89str_set_token_shape l _ _ | exact c89str_set_single_char_shape l _ | split
    rw [if_neg hc3]
    by_cases hc4 : memGet txt off = 0x3E
    · rw [if_pos hc4]
      repeat' first
        | exact c89str_set_token_shape l _ _ | exact c89str_set_single_char_shape l _ | split
    rw [if_neg hc4]
    by_cases hc5 : memGet txt off = 0x26
    · rw [if_pos hc5]
      repeat' first
        | exact c89str_set_token_shape l _ _ | exact c89str_set_single_char_shape l _ | split
    rw [if_neg hc5]
    by_cases hc6 : memGet txt off = 0x7C
    · rw [if_pos hc6]
      repeat' first
        | exact c89str_set_token_shape l _ _ | exact c89str_set_single_char_shape l _ | split
    rw [if_neg hc6]
    by_cases hc7 : memGet txt off = 0x2B
    · rw [if_pos hc7]
      repeat' first
        | exact c89str_set_token_shape l _ _ | exact c89str_set_single_char_shape l _ | split
    rw [if_neg hc7]
    by_cases hc8 : memGet txt off = 0x2D
    · rw [if_pos hc8]
      repeat' first
        | exact c89str_set_token_shape l _ _ | exact c89str_set_single_char_shape l _ | split
    rw [if_neg hc8]
    by_cases hc9 : memGet txt off = 0x2A
    · rw [if_pos hc9]
      repeat' first
        | exact c89str_set_token_shape l _ _ | exact c89str_set_single_char_shape l _ | split
    rw [if_neg hc9]
    by_cases hc10 : memGet txt off = 0x2F
    · rw [if_pos hc10]
      repeat' first
        | exact c89str_set_token_shape l _ _ | exact c89str_set_single_char_shape l _ | split
    rw [if_neg hc10]
    by_cases hc11 : memGet txt off = 0x25
    · rw [if_pos hc11]
      repeat' first
        | exact c89str_set_token_shape l _ _ | exact c89str_set_single_char_shape l _ | split
    rw [if_neg hc11]
    by_cases hc12 : memGet txt off = 0x5E
    · rw [if_pos hc12]
      repeat' first
        | exact c89str_set_token_shape l _ _ | exact c89str_set_single_char_shape l _ | split
    rw [if_neg hc12]
    by_cases hc13 : memGet txt off = 0x3A
    · rw [if_pos hc13]
      repeat' first
        | exact c89str_set_token_shape l _ _ | exact c89str_set_single_char_shape l _ | split
    rw [if_neg hc13]
    by_cases hc14 : memGet txt off = 0x2E
    · rw [if_pos hc14]
      repeat' first
        | exact c89str_set_token_shape l _ _ | exact c89str_set_single_char_shape l _ | split
    rw [if_neg hc14]
    repeat' first
      | exact c89str_set_token_shape l _ _ | exact c89str_set_single_char_shape l _ | split

/-- Every path through the single-quote check and beyond ends in
`c89str_lexer_set_token` applied to the pre-call state. -/
theorem c89str_next_after_strings_shape (l : c89str_lexer) (txt : List Nat) (len off : Nat) :
    ∃ t n, (c89str_lexer_next_after_strings l txt len off).1 =
      (c89str_lexer_set_token l t n).1 := by
  unfold c89str_lexer_next_after_strings
  repeat' first
    | exact c89str_set_token_shape l _ _
    | exact c89str_next_switch_shape l txt len _
    | split

/-- Every `c89str_lexer_next` call produces its state by one
`c89str_lexer_set_token` application to the pre-call state: the line number
is never touched anywhere else. -/
theorem c89str_lexer_next_produces_set_token (l : c89str_lexer) :
    ∃ t n, (c89str_lexer_next l).1 = (c89str_lexer_set_token l t n).1 := by
  unfold c89str_lexer_next
  dsimp only
  repeat' first
    | exact c89str_set_token_shape l c89str_token_type_eof 0
    | exact c89str_set_token_shape l _ _
    | exact c89str_next_after_strings_shape l _ _ _
    | split

/-- Field bookkeeping of `c89str_lexer_set_token`. -/
theorem c89str_set_token_fields (l : c89str_lexer) (t n : Nat) :
    (c89str_lexer_set_token l t n).1.pText = l.pText ∧
    (c89str_lexer_set_token l t n).1.textLen = l.textLen ∧
    (c89str_lexer_set_token l t n).1.textOff = l.textOff + n ∧
    (c89str_lexer_set_token l t n).1.token = t ∧
    (c89str_lexer_set_token l t n).1.pTokenStr = l.textOff ∧
    (c89str_lexer_set_token l t n).1.tokenLen = n ∧
    (c89str_lexer_set_token l t n).1.options = l.options := by
  unfold c89str_lexer_set_token
  dsimp only
  split
  repeat' first | split | simp

/-- `c89str_lexer_set_token` advances the line number by exactly the token's
`c89str_token_line_delta`. -/
theorem c89str_set_token_lineNumber (l : c89str_lexer) (t n : Nat) :
    (c89str_lexer_set_token l t n).1.lineNumber =
      l.lineNumber + c89str_token_line_delta l.pText (t, l.textOff, n) := by
  unfold c89str_lexer_set_token c89str_token_line_delta
  dsimp only
  split
  repeat' first | split | simp | omega

/-- After any number of `c89str_lexer_next` calls the line number is the
starting line number plus the sum of the produced tokens' line deltas, and
the source text is untouched. -/
theorem c89str_lexer_run_lineNumber (n : Nat) (l : c89str_lexer) :
    (c89str_lexer_run l n).1.lineNumber =
      l.lineNumber + ((c89str_lexer_run l n).2.map (c89str_token_line_delta l.pText)).sum ∧
    (c89str_lexer_run l n).1.pText = l.pText := by
  induction n generalizing l with
  | zero => simp [c89str_lexer_run]
  | succ k ih =>
    obtain ⟨t, m, hsh⟩ := c89str_lexer_next_produces_set_token l
    have hf := c89str_set_token_fields l t m
    have hln := c89str_set_token_lineNumber l t m
    have hl2line : (c89str_lexer_next l).1.lineNumber =
        l.lineNumber + c89str_token_line_delta l.pText
          ((c89str_lexer_next l).1.token, (c89str_lexer_next l).1.pTokenStr,
            (c89str_lexer_next l).1.tokenLen) := by
      rw [hsh, hln, hf.2.2.2.1, hf.2.2.2.2.1, hf.2.2.2.2.2.1]
    have hl2text : (c89str_lexer_next l).1.pText = l.pText := by rw [hsh]; exact hf.1
    obtain ⟨ih1, ih2⟩ := ih (c89str_lexer_next l).1
    constructor
    · show (c89str_lexer_run (c89str_lexer_next l).1 k).1.lineNumber = _
      rw [ih1, hl2text, hl2line]
      show _ = l.lineNumber + (List.map (c89str_token_line_delta l.pText)
        (((c89str_lexer_next l).1.token, (c89str_lexer_next l).1.pTokenStr,
          (c89str_lexer_next l).1.tokenLen) ::
          (c89str_lexer_run (c89str_lexer_next l).1 k).2)).sum
      rw [List.map_cons, List.sum_cons]
      omega
    · show (c89str_lexer_run (c89str_lexer_next l).1 k).1.pText = _
      rw [ih2, hl2text]

/-- Splitting the summed token deltas into the newline-token count plus the
embedded-newline counts of comment and string tokens. -/
theorem c89str_token_line_delta_sum_split (text : List Nat) (rs : List (Nat × Nat × Nat)) :
    (rs.map (c89str_token_line_delta text)).sum =
      (rs.filter (fun r => r.1 == c89str_token_type_newline)).length +
      (rs.map (fun r => if r.1 = c89str_token_type_comment ∨
          r.1 = c89str_token_type_string_double ∨
          r.1 = c89str_token_type_string_single then
        c89str_lexer_count_lines_loop text r.2.1 r.2.2 (r.2.2 + 1) 0
      else 0)).sum := by
  induction rs with
  | nil => simp
  | cons r rs ih =>
    by_cases hn : r.1 = c89str_token_type_newline <;>
      simp [c89str_token_line_delta, List.filter_cons, beq_iff_eq, hn, ih] <;> omega

/-- C5: after `c89str_lexer_init` and any number of `c89str_lexer_next`
calls, the lexer's line number equals 1 plus the number of newline tokens
produced so far plus the number of embedded newlines counted inside the
comment and string tokens produced so far (the count the engine itself
obtains by re-scanning each such token's span with
`c89str_utf8_find_next_line`, which merges a `\r` immediately followed by
`\n` into a single newline).  The second conjunct checks the specification's
concrete scenario: a source with exactly 5 newlines counting `\r\n` as one,
one of them inside a block comment and one inside a double-quoted string,
reaches EOF with line counter `5 + 1`. -/
theorem c89str_lexer_line_counter_invariant :
    (∀ (text : List Nat) (textLen n : Nat),
      ((c89str_lexer_run (c89str_lexer_init text textLen) n).1).lineNumber =
        1 + (((c89str_lexer_run (c89str_lexer_init text textLen) n).2.filter
            (fun r => r.1 == c89str_token_type_newline)).length +
          ((c89str_lexer_run (c89str_lexer_init text textLen) n).2.map
            (fun r => if r.1 = c89str_token_type_comment ∨
                r.1 = c89str_token_type_string_double ∨
                r.1 = c89str_token_type_string_single then
              c89str_lexer_count_lines_loop text r.2.1 r.2.2 (r.2.2 + 1) 0
            else 0)).sum)) ∧
    (c89str_lexer_run (c89str_lexer_init c89str_line_count_example_text 18) 8).1.lineNumber =
      5 + 1 := by
  constructor
  · intro text textLen n
    have h := c89str_lexer_run_lineNumber n (c89str_lexer_init text textLen)
    have hinit1 : (c89str_lexer_init text textLen).lineNumber = 1 := rfl
    have hinit2 : (c89str_lexer_init text textLen).pText = text := rfl
    rw [hinit1, hinit2] at h
    rw [h.1, c89str_token_line_delta_sum_split]
  · decide

/-- Decoding one code point at a buffer whose head byte is the single-quote
character `0x27`: one ASCII byte is consumed and `ENOMEM` (capacity 1 used
up) is reported, as the scanning helpers expect. -/
theorem c89str_utf8_decode_quote_head (p : List Nat) (rem : Nat) (h1 : 0 < rem)
    (h2 : rem < c89str_npos) (hb : memGet p 0 = 0x27) :
    c89str_utf8_to_utf32ne 1 p rem 0 = (.enomem, [0x27], 1, 1) := by
  obtain ⟨r, hr⟩ : ∃ r, rem = r + 1 := ⟨rem - 1, by omega⟩
  subst hr
  have hbom : c89str_utf8_has_bom p (r + 1) = false := by
    unfold c89str_utf8_has_bom
    split
    · rfl
    · simp [hb]
  have hnpos : r + 1 ≠ c89str_npos := by omega
  unfold c89str_utf8_to_utf32ne
  simp only [hbom, Bool.false_eq_true, false_and, if_false, ite_false, if_neg hnpos]
  unfold c89str_utf8_to_utf32ne_fixed_loop
  simp only [hb]
  norm_num
  rcases Nat.eq_zero_or_pos r with h0 | hpos
  · subst h0
    norm_num [c89str_utf8_to_utf32ne_fixed_loop, s64sub]
  · unfold c89str_utf8_to_utf32ne_fixed_loop
    have : (1 : Nat) < r + 1 := by omega
    simp only [if_pos this]
    norm_num [s64sub]

/-- A single-quote character is not whitespace, so the leading-whitespace run
at it is empty. -/
theorem c89str_ltrim_at_quote (txt : List Nat) (off len : Nat) (hoff : off < len)
    (hlen : len < c89str_npos) (hq : memGet txt off = 0x27) :
    c89str_utf8_ltrim_offset (txt.drop off) (len - off) = 0 := by
  have hmem : memGet (txt.drop off) 0 = 0x27 := by
    rw [memGet_drop]; simpa using hq
  obtain ⟨r, hr⟩ : ∃ r, len - off = r + 1 := ⟨len - off - 1, by omega⟩
  unfold c89str_utf8_ltrim_offset
  rw [hr]
  unfold c89str_utf8_ltrim_offset_loop
  rw [List.drop_zero]
  rw [c89str_utf8_decode_quote_head (txt.drop off) (r + 1) (by omega) (by omega) hmem]
  simp [hmem, show c89str_utf32_is_null_or_whitespace [0x27] 1 = false from by decide]

/-- Text starting with a single quote does not begin with a comment opener
(whose first byte is `/`). -/
theorem c89str_begins_with_false_at_quote (p : List Nat) (rem : Nat) (h1 : rem ≠ 0)
    (hb : memGet p 0 = 0x27) (o : List Nat) (ho : memGet o 0 = 0x2F) :
    c89str_begins_with p rem o c89str_npos = false := by
  unfold c89str_begins_with
  unfold c89str_begins_with_loop
  have hnpos : c89str_npos ≠ 0 := by decide
  simp [h1, hb, ho, hnpos, c89str_npos]

/-- The string-literal scan, given enough fuel and some unescaped closing
quote before `len`, returns one past such a closing quote. -/
theorem c89str_scan_string_finds (txt : List Nat) (len q : Nat) :
    ∀ fuel start, len - start < fuel →
      (∃ j, start ≤ j ∧ j < len ∧ memGet txt j = q ∧ memGet txt (j - 1) ≠ 0x5C) →
      ∃ j, start ≤ j ∧ j < len ∧ memGet txt j = q ∧ memGet txt (j - 1) ≠ 0x5C ∧
        c89str_lexer_scan_string_loop txt len q fuel start = some (j + 1) := by
  intro fuel
  induction fuel with
  | zero =>
    intro start hf hex
    exact absurd hf (by omega)
  | succ f ih =>
    intro start hf hex
    have hs : start < len := by
      obtain ⟨j, hj1, hj2, _, _⟩ := hex
      omega
    unfold c89str_lexer_scan_string_loop
    rw [if_pos hs]
    by_cases hP : memGet txt start = q ∧ memGet txt (start - 1) ≠ 0x5C
    · rw [if_pos hP]
      exact ⟨start, Nat.le_refl _, hs, hP.1, hP.2, rfl⟩
    · rw [if_neg hP]
      have hex2 : ∃ j, start + 1 ≤ j ∧ j < len ∧ memGet txt j = q ∧
          memGet txt (j - 1) ≠ 0x5C := by
        obtain ⟨j, hj1, hj2, hj3, hj4⟩ := hex
        have hne : j ≠ start := by
          intro he
          exact hP (he ▸ ⟨hj3, hj4⟩)
        exact ⟨j, by omega, hj2, hj3, hj4⟩
      obtain ⟨j, h1, h2, h3, h4, h5⟩ := ih (start + 1) (by omega) hex2
      exact ⟨j, by omega, h2, h3, h4, h5⟩

/-- C9: whenever the cursor sits on a single-quoted string literal that has a
matching unescaped closing quote (under the default comment delimiters and a
real, non-sentinel length), `c89str_lexer_next` emits a token whose kind is
`c89str_token_type_string_double` -- never `c89str_token_type_string_single`
-- starting at the opening quote and ending one past a closing quote, so the
span includes both delimiters. -/
theorem c89str_single_quote_token_is_string_double (l : c89str_lexer)
    (hlen : l.textLen < c89str_npos)
    (hoff : l.textOff < l.textLen)
    (hq : memGet l.pText l.textOff = 0x27)
    (hopen1 : l.options.pLineCommentOpeningToken = [0x2F, 0x2F])
    (hopen2 : l.options.pBlockCommentOpeningToken = [0x2F, 0x2A])
    (hclose : ∃ j, l.textOff < j ∧ j < l.textLen ∧ memGet l.pText j = 0x27 ∧
      memGet l.pText (j - 1) ≠ 0x5C) :
    (c89str_lexer_next l).1.token = c89str_token_type_string_double ∧
    (c89str_lexer_next l).1.token ≠ c89str_token_type_string_single ∧
    (c89str_lexer_next l).1.pTokenStr = l.textOff ∧
    ∃ j, l.textOff < j ∧ j < l.textLen ∧ memGet l.pText j = 0x27 ∧
      memGet l.pText (j - 1) ≠ 0x5C ∧
      (c89str_lexer_next l).1.tokenLen = j + 1 - l.textOff := by
  have hex : ∃ j, l.textOff + 1 ≤ j ∧ j < l.textLen ∧ memGet l.pText j = 0x27 ∧
      memGet l.pText (j - 1) ≠ 0x5C := by
    obtain ⟨j, h1, h2, h3, h4⟩ := hclose
    exact ⟨j, by omega, h2, h3, h4⟩
  obtain ⟨j, hj1, hj2, hj3, hj4, hscan⟩ :=
    c89str_scan_string_finds l.pText l.textLen 0x27 (l.textLen + 1) (l.textOff + 1)
      (by omega) hex
  have hmem0 : memGet (l.pText.drop l.textOff) 0 = 0x27 := by
    rw [memGet_drop]; simpa using hq
  have hb1 : c89str_begins_with (l.pText.drop l.textOff) (l.textLen - l.textOff)
      l.options.pLineCommentOpeningToken c89str_npos = false := by
    rw [hopen1]
    exact c89str_begins_with_false_at_quote _ _ (by omega) hmem0 _ rfl
  have hb2 : c89str_begins_with (l.pText.drop l.textOff) (l.textLen - l.textOff)
      l.options.pBlockCommentOpeningToken c89str_npos = false := by
    rw [hopen2]
    exact c89str_begins_with_false_at_quote _ _ (by omega) hmem0 _ rfl
  have hnext : c89str_lexer_next l =
      c89str_lexer_set_token l c89str_token_type_string_double (j + 1 - l.textOff) := by
    unfold c89str_lexer_next
    rw [if_neg (by omega : ¬ l.textOff = l.textLen)]
    rw [c89str_ltrim_at_quote l.pText l.textOff l.textLen hoff hlen hq]
    rw [if_neg (by omega : ¬ (0 : Nat) > 0)]
    rw [hb1]
    rw [if_neg (by simp : ¬ (false : Bool) = true)]
    rw [hb2]
    rw [if_neg (by simp : ¬ (false : Bool) = true)]
    rw [hq]
    rw [if_neg (by decide : ¬ (0x27 : Nat) = 0x22)]
    unfold c89str_lexer_next_after_strings
    rw [if_pos hq]
    rw [hscan]
  rw [hnext]
  have hf := c89str_set_token_fields l c89str_token_type_string_double (j + 1 - l.textOff)
  refine ⟨hf.2.2.2.1, ?_, hf.2.2.2.2.1, j, by omega, hj2, hj3, hj4, hf.2.2.2.2.2.1⟩
  rw [hf.2.2.2.1]
  decide

/-- Witness for C9 at the concrete source `'ab'`. -/
theorem c89str_single_quote_token_is_string_double_witness :
    (c89str_lexer_next (c89str_lexer_init [0x27, 0x61, 0x62, 0x27] 4)).1.token =
      c89str_token_type_string_double ∧
    (c89str_lexer_next (c89str_lexer_init [0x27, 0x61, 0x62, 0x27] 4)).1.token ≠
      c89str_token_type_string_single ∧
    (c89str_lexer_next (c89str_lexer_init [0x27, 0x61, 0x62, 0x27] 4)).1.pTokenStr =
      (c89str_lexer_init [0x27, 0x61, 0x62, 0x27] 4).textOff ∧
    ∃ j, (c89str_lexer_init [0x27, 0x61, 0x62, 0x27] 4).textOff < j ∧
      j < (c89str_lexer_init [0x27, 0x61, 0x62, 0x27] 4).textLen ∧
      memGet (c89str_lexer_init [0x27, 0x61, 0x62, 0x27] 4).pText j = 0x27 ∧
      memGet (c89str_lexer_init [0x27, 0x61, 0x62, 0x27] 4).pText (j - 1) ≠ 0x5C ∧
      (c89str_lexer_next (c89str_lexer_init [0x27, 0x61, 0x62, 0x27] 4)).1.tokenLen =
        j + 1 - (c89str_lexer_init [0x27, 0x61, 0x62, 0x27] 4).textOff :=
  c89str_single_quote_token_is_string_double (c89str_lexer_init [0x27, 0x61, 0x62, 0x27] 4)
    (by decide) (by decide) (by decide) (by decide) (by decide)
    ⟨3, by decide, by decide, by decide, by decide⟩
